import Mathlib

/-!
# VamTimelineTool — verification of the keyframe codec and merge engine

Shallow embedding of the Python sources (`keyframe_logic.py`, `data_models.py`,
`app_logic.py`) of mjanek20/VamTimelineTool, with theorems settling the
specification claims.

Modelling conventions:
* Python `float` (IEEE-754 binary64) values are modelled as exact rationals
  (`ℚ`); arithmetic and comparisons on them are exact rational operations.
  The float literal `1e-7` is modelled as the exact rational `1/10^7`.
* `struct.pack('<f', x)` is modelled by rounding the rational to the nearest
  IEEE-754 binary32 bit pattern (`f32bits`, round-to-nearest-even, ties to
  even) and serializing the 4 bytes little-endian; `struct.unpack('<f', b)`
  by the exact rational value of the bit pattern (`b32val`).
* Python strings are Lean `String`s; slicing `s[a:b]` is `take`/`drop` on the
  character list.
* Exceptions are modelled with `Except`/`Option`; a raised exception inside a
  mutating method is modelled by returning the state as mutated so far
  together with the error, mirroring Python's exception semantics.
-/

set_option maxRecDepth 100000

namespace VamTimeline

/-! ## Generic JSON values (the parsed documents) -/

/-- A JSON value tree, as produced by `json.load`. Object fields keep the
document's key order (Python dicts preserve insertion order). -/
inductive Json where
  | null
  | bool (b : Bool)
  | num (q : ℚ)
  | str (s : String)
  | arr (elems : List Json)
  | obj (fields : List (String × Json))
deriving Repr

/-- Dictionary lookup: `d.get(k)` / `d[k]` (first binding; parsed JSON objects
have unique keys). -/
def jsonLookup (fields : List (String × Json)) (k : String) : Option Json :=
  (fields.find? (fun p => p.1 = k)).map (·.2)

/-- Python dict assignment `d[k] = v`: replace in place when the key exists
(keeping its position), else append. (Python dicts have unique keys, so
replacing the first binding is exact.) -/
def dictSet : List (String × Json) → String → Json → List (String × Json)
  | [], k, v => [(k, v)]
  | p :: rest, k, v =>
    if p.1 = k then (k, v) :: rest else p :: dictSet rest k v

/-- Python `d.update(other)`: sequential assignments. -/
def dictUpdate (fields other : List (String × Json)) : List (String × Json) :=
  other.foldl (fun d p => dictSet d p.1 p.2) fields

/-- Membership test `k in d` for a JSON object's fields. -/
def hasKey (fields : List (String × Json)) (k : String) : Bool :=
  fields.any (fun p => p.1 = k)

/-- Python `==` between a JSON value and a `str` (false on any non-string). -/
def jsonEqStr (j : Option Json) (s : String) : Bool :=
  match j with
  | some (.str t) => t = s
  | _ => false

/-! ## Python floats as rationals, and the binary32 pack/unpack model -/

/-- Round to the nearest integer, ties to even (IEEE default rounding). -/
def roundHalfEven (q : ℚ) : ℤ :=
  let f := ⌊q⌋
  let r := q - (f : ℚ)
  if r < 1/2 then f
  else if 1/2 < r then f + 1
  else if f % 2 = 0 then f else f + 1

/-- Exact rational value of an IEEE-754 binary32 bit pattern (finite
patterns; exponent-255 patterns are given their formal magnitudes). -/
def b32val (w : ℕ) : ℚ :=
  let sign : ℕ := w / 2 ^ 31 % 2
  let ex : ℕ := w / 2 ^ 23 % 2 ^ 8
  let mant : ℕ := w % 2 ^ 23
  let mag : ℚ :=
    if ex = 0 then (mant : ℚ) * (2 : ℚ) ^ (-149 : ℤ)
    else ((2 ^ 23 + mant : ℕ) : ℚ) * (2 : ℚ) ^ ((ex : ℤ) - 150)
  if sign = 1 then -mag else mag

/-- Floor of the base-2 logarithm of a positive rational (via the
kernel-accelerated `Nat.log2`). -/
def floorLog2 (q : ℚ) : ℤ :=
  if 1 ≤ q then (Nat.log2 ⌊q⌋.toNat : ℤ)
  else
    let k : ℕ := Nat.log2 ⌊1 / q⌋.toNat
    if (2 : ℚ) ^ (-(k : ℤ)) ≤ q then -(k : ℤ) else -(k : ℤ) - 1

/-- Round a rational to the nearest IEEE-754 binary32 bit pattern
(round-to-nearest-even; overflow to infinity). Models the float64→float32
conversion performed by `struct.pack('<f', x)`. -/
def f32bits (x : ℚ) : ℕ :=
  let s : ℕ := if x < 0 then 1 else 0
  let a := |x|
  if a = 0 then s * 2 ^ 31
  else
    let e : ℤ := max (floorLog2 a) (-126)
    let m : ℕ := (roundHalfEven (a * (2 : ℚ) ^ (23 - e))).toNat
    if 2 ^ 24 ≤ m then
      -- rounded up into the next binade
      if 127 < e + 1 then s * 2 ^ 31 + 255 * 2 ^ 23
      else s * 2 ^ 31 + (e + 1 + 127).toNat * 2 ^ 23
    else if 2 ^ 23 ≤ m then
      if 127 < e then s * 2 ^ 31 + 255 * 2 ^ 23
      else s * 2 ^ 31 + (e + 127).toNat * 2 ^ 23 + (m - 2 ^ 23)
    else
      -- subnormal range (e was clamped to -126)
      s * 2 ^ 31 + m

/-- `x` is exactly representable as a finite binary32 float. -/
def repr32 (x : ℚ) : Prop :=
  b32val (f32bits x) = x ∧ f32bits x / 2 ^ 23 % 2 ^ 8 ≠ 255

instance (x : ℚ) : Decidable (repr32 x) :=
  inferInstanceAs (Decidable (_ ∧ _))

/-- The value-change tolerance `1e-7` of the codec. -/
def kfTol : ℚ := 1 / 10000000

/-! ## Hex serialization (`bytes.hex().upper()` / `bytes.fromhex`) -/

/-- Uppercase hex digit for `n < 16`. -/
def hexDigitChar (n : ℕ) : Char :=
  if n < 10 then Char.ofNat (48 + n) else Char.ofNat (55 + n)

/-- Two uppercase hex characters of one byte, high nibble first. -/
def byteHex (b : ℕ) : List Char := [hexDigitChar (b / 16), hexDigitChar (b % 16)]

/-- `bytes.hex().upper()` over a byte list. -/
def bytesHexUpper (bs : List ℕ) : List Char :=
  bs.foldr (fun b acc => byteHex b ++ acc) []

/-- `struct.pack('<f', ·)` applied to a binary32 bit pattern: the 4 bytes,
little-endian. -/
def packF32 (w : ℕ) : List ℕ :=
  [w % 256, w / 256 % 256, w / 2 ^ 16 % 256, w / 2 ^ 24 % 256]

/-- Value of one hex character (both cases accepted, as `fromhex` does). -/
def hexDigitVal (c : Char) : Option ℕ :=
  if '0' ≤ c ∧ c ≤ '9' then some (c.toNat - 48)
  else if 'a' ≤ c ∧ c ≤ 'f' then some (c.toNat - 87)
  else if 'A' ≤ c ∧ c ≤ 'F' then some (c.toNat - 55)
  else none

/-- Pair up hex characters into bytes; odd length or a non-hex character
fails (`ValueError` in Python). -/
def hexPairs : List Char → Option (List ℕ)
  | [] => some []
  | [_] => none
  | c1 :: c2 :: rest =>
    match hexDigitVal c1, hexDigitVal c2, hexPairs rest with
    | some h, some l, some bs => some ((16 * h + l) :: bs)
    | _, _, _ => none

/-- `bytes.fromhex` on a character list (ASCII spaces are skipped). -/
def fromhex (cs : List Char) : Option (List ℕ) :=
  hexPairs (cs.filter (· ≠ ' '))

/-- `struct.unpack('<f', b)`: requires exactly 4 bytes; returns the
little-endian bit pattern. -/
def unpackF32 (bs : List ℕ) : Option ℕ :=
  match bs with
  | [b0, b1, b2, b3] => some (b0 + 256 * b1 + 2 ^ 16 * b2 + 2 ^ 24 * b3)
  | _ => none

/-- `struct.unpack('<B', b)`: requires exactly 1 byte. -/
def unpackU8 (bs : List ℕ) : Option ℕ :=
  match bs with
  | [b] => some b
  | _ => none

/-! ## The keyframe codec (keyframe_logic.py) -/

/-- `KeyframeEncoder.encode_keyframe` (keyframe_logic.py lines 8–23).
Returns `none` exactly when one of the `struct.pack` calls would raise:
`pack('<f', ·)` raises `OverflowError` when the rounded value does not fit
a finite binary32, and `pack('<B', curve_type)` raises for a curve type
outside `0..255` (when the corresponding field is emitted). -/
def encode_keyframe (time value : ℚ) (curve_type : ℤ) (last_v : ℚ)
    (last_c : ℤ) : Option String :=
  let has_value := kfTol < |last_v - value|
  let has_curve_type := last_c ≠ curve_type
  let encoded_value : ℕ :=
    (if has_value then 1 else 0) + (if has_curve_type then 2 else 0)
  let flag := Char.ofNat (65 + encoded_value)
  if f32bits time / 2 ^ 23 % 2 ^ 8 = 255 ∨
      (has_value ∧ f32bits value / 2 ^ 23 % 2 ^ 8 = 255) ∨
      (has_curve_type ∧ ¬(0 ≤ curve_type ∧ curve_type < 256)) then none
  else
    let timeHex := bytesHexUpper (packF32 (f32bits time))
    let valueHex := if has_value then bytesHexUpper (packF32 (f32bits value)) else []
    let curveHex := if has_curve_type then byteHex curve_type.toNat else []
    some ⟨flag :: (timeHex ++ (valueHex ++ curveHex))⟩

/-- Parse 8 hex characters as a little-endian binary32 value
(`struct.unpack('<f', bytes.fromhex(...))[0]`). -/
def parseF32 (cs : List Char) : Except String ℚ :=
  match fromhex cs with
  | none => .error "non-hexadecimal number found in fromhex() arg"
  | some bs =>
    match unpackF32 bs with
    | none => .error "unpack requires a buffer of 4 bytes"
    | some w => .ok (b32val w)

/-- Parse 2 hex characters as one byte (`struct.unpack('<B', ...)`). -/
def parseU8 (cs : List Char) : Except String ℕ :=
  match fromhex cs with
  | none => .error "non-hexadecimal number found in fromhex() arg"
  | some bs =>
    match unpackU8 bs with
    | none => .error "unpack requires a buffer of 1 bytes"
    | some b => .ok b

/-- `KeyframeDecoder.decode_keyframe` (keyframe_logic.py lines 29–51).
The flag bits are extracted with Python's two's-complement `&` semantics
(`emod`), since the flag character is arbitrary. -/
def decode_keyframe (encoded_str : String) (last_v : ℚ) (last_c : ℤ) :
    Except String (ℚ × ℚ × ℤ) :=
  match encoded_str.toList with
  | [] => .error "Encoded string is empty"
  | flag_char :: rest =>
    let encoded_value : ℤ := (flag_char.toNat : ℤ) - 65
    let has_value := encoded_value.emod 2 = 1
    let has_curve_type := 2 ≤ encoded_value.emod 4
    match parseF32 (rest.take 8) with
    | .error e => .error e
    | .ok time =>
      let afterTime := rest.drop 8
      match (if has_value then (parseF32 (afterTime.take 8)).map some
             else .ok none : Except String (Option ℚ)) with
      | .error e => .error e
      | .ok v? =>
        let value := v?.getD last_v
        let afterValue := if has_value then afterTime.drop 8 else afterTime
        match (if has_curve_type then (parseU8 (afterValue.take 2)).map some
               else .ok none : Except String (Option ℕ)) with
        | .error e => .error e
        | .ok c? =>
          let curve_type : ℤ := match c? with
            | some b => (b : ℤ)
            | none => last_c
          .ok (time, value, curve_type)

/-- The token length demanded by a token's flag byte: 1 flag character plus
8 time-hex characters, plus 8 more when the value bit is set, plus 2 more
when the curve-type bit is set (an empty string demands 1). -/
def demandedLength (s : String) : ℕ :=
  match s.toList with
  | [] => 1
  | c :: _ =>
    let ev : ℤ := (c.toNat : ℤ) - 65
    9 + (if ev.emod 2 = 1 then 8 else 0) + (if 2 ≤ ev.emod 4 then 2 else 0)

/-! ### Round-trip lemmas for the hex layer -/

theorem hexDigitVal_hexDigitChar (b : ℕ) (hb : b < 16) :
    hexDigitVal (hexDigitChar b) = some b := by
  interval_cases b <;> decide

theorem hexDigitChar_ne_space (b : ℕ) (hb : b < 16) : hexDigitChar b ≠ ' ' := by
  interval_cases b <;> decide

theorem filter_byteHex (b : ℕ) (hb : b < 256) :
    (byteHex b).filter (· ≠ ' ') = byteHex b := by
  rw [List.filter_eq_self]
  intro c hc
  simp only [byteHex, List.mem_cons, List.not_mem_nil, or_false] at hc
  rcases hc with h | h <;> subst h <;>
    simpa using hexDigitChar_ne_space _ (by omega)

theorem hexPairs_byteHex (b : ℕ) (hb : b < 256) (rest : List Char) (bs : List ℕ)
    (h : hexPairs rest = some bs) :
    hexPairs (byteHex b ++ rest) = some (b :: bs) := by
  simp only [byteHex, List.cons_append, List.nil_append, List.append_eq,
    hexPairs, hexDigitVal_hexDigitChar (b / 16) (by omega),
    hexDigitVal_hexDigitChar (b % 16) (by omega), h]
  have hb' : 16 * (b / 16) + b % 16 = b := by omega
  rw [hb']

theorem fromhex_bytesHex (bs : List ℕ) (h : ∀ b ∈ bs, b < 256) :
    fromhex (bytesHexUpper bs) = some bs := by
  unfold fromhex
  induction bs with
  | nil => rfl
  | cons b rest ih =>
    have hb : b < 256 := h b (by simp)
    have hrest : ∀ x ∈ rest, x < 256 := fun x hx => h x (by simp [hx])
    have ihr := ih hrest
    show hexPairs ((byteHex b ++ bytesHexUpper rest).filter (· ≠ ' ')) = _
    rw [List.filter_append, filter_byteHex b hb]
    exact hexPairs_byteHex b hb _ rest ihr

theorem packF32_bytes_lt (w : ℕ) : ∀ b ∈ packF32 w, b < 256 := by
  intro b hb
  simp only [packF32, List.mem_cons, List.not_mem_nil, or_false] at hb
  rcases hb with h | h | h | h <;> subst h <;> omega

theorem unpackF32_packF32 (w : ℕ) (hw : w < 2 ^ 32) :
    unpackF32 (packF32 w) = some w := by
  simp only [packF32, unpackF32]
  congr 1
  omega

theorem length_bytesHex_packF32 (w : ℕ) :
    (bytesHexUpper (packF32 w)).length = 8 := rfl

/-- Every binary32 bit pattern produced by `f32bits` fits in 32 bits. -/
theorem f32bits_lt (x : ℚ) : f32bits x < 2 ^ 32 := by
  unfold f32bits
  dsimp only
  have he : (-126 : ℤ) ≤ floorLog2 |x| ⊔ -126 := le_sup_right
  split_ifs <;> omega

theorem parseF32_bytesHex (w : ℕ) (hw : w < 2 ^ 32) (rest : List Char) :
    parseF32 ((bytesHexUpper (packF32 w) ++ rest).take 8) = .ok (b32val w) := by
  rw [List.take_left' (length_bytesHex_packF32 w)]
  simp only [parseF32, fromhex_bytesHex _ (packF32_bytes_lt w),
    unpackF32_packF32 w hw]

theorem drop8_bytesHex (w : ℕ) (rest : List Char) :
    (bytesHexUpper (packF32 w) ++ rest).drop 8 = rest :=
  List.drop_left' (length_bytesHex_packF32 w)

theorem parseF32_bytesHex' (w : ℕ) (hw : w < 2 ^ 32) :
    parseF32 ((bytesHexUpper (packF32 w)).take 8) = .ok (b32val w) := by
  have h := parseF32_bytesHex w hw []
  rwa [List.append_nil] at h

theorem parseU8_byteHex (b : ℕ) (hb : b < 256) (rest : List Char) :
    parseU8 ((byteHex b ++ rest).take 2) = .ok b := by
  have hlen : (byteHex b).length = 2 := rfl
  rw [List.take_left' hlen]
  have h1 : fromhex (byteHex b) = some [b] := by
    unfold fromhex
    rw [filter_byteHex b hb]
    exact hexPairs_byteHex b hb [] [] rfl
  simp only [parseU8, h1, unpackU8]

theorem parseU8_byteHex' (b : ℕ) (hb : b < 256) :
    parseU8 ((byteHex b).take 2) = .ok b := by
  have h := parseU8_byteHex b hb []
  rwa [List.append_nil] at h

/-! ### Decoding each token shape produced by the encoder -/

theorem decode_flagD (tw vw b : ℕ) (htw : tw < 2 ^ 32) (hvw : vw < 2 ^ 32)
    (hb : b < 256) (lv : ℚ) (lc : ℤ) :
    decode_keyframe
      ⟨Char.ofNat 68 ::
        (bytesHexUpper (packF32 tw) ++ (bytesHexUpper (packF32 vw) ++ byteHex b))⟩
      lv lc = .ok (b32val tw, b32val vw, (b : ℤ)) := by
  have h1 : (((Char.ofNat 68).toNat : ℤ) - 65).emod 2 = 1 := by decide
  have h2 : 2 ≤ (((Char.ofNat 68).toNat : ℤ) - 65).emod 4 := by decide
  simp only [decode_keyframe, String.toList, h1, h2, if_pos, if_true,
    parseF32_bytesHex tw htw, drop8_bytesHex, parseF32_bytesHex vw hvw,
    parseU8_byteHex' b hb, Except.map, Option.getD]

theorem decode_flagC (tw b : ℕ) (htw : tw < 2 ^ 32) (hb : b < 256)
    (lv : ℚ) (lc : ℤ) :
    decode_keyframe
      ⟨Char.ofNat 67 :: (bytesHexUpper (packF32 tw) ++ ([] ++ byteHex b))⟩
      lv lc = .ok (b32val tw, lv, (b : ℤ)) := by
  have h1 : ¬(((Char.ofNat 67).toNat : ℤ) - 65).emod 2 = 1 := by decide
  have h2 : 2 ≤ (((Char.ofNat 67).toNat : ℤ) - 65).emod 4 := by decide
  simp only [decode_keyframe, String.toList, h1, h2, if_pos, if_false,
    if_true, ite_true, ite_false, List.nil_append,
    parseF32_bytesHex tw htw, drop8_bytesHex,
    parseU8_byteHex' b hb, Except.map, Option.getD]

theorem decode_flagB (tw vw : ℕ) (htw : tw < 2 ^ 32) (hvw : vw < 2 ^ 32)
    (lv : ℚ) (lc : ℤ) :
    decode_keyframe
      ⟨Char.ofNat 66 :: (bytesHexUpper (packF32 tw) ++ (bytesHexUpper (packF32 vw) ++ []))⟩
      lv lc = .ok (b32val tw, b32val vw, lc) := by
  have h1 : (((Char.ofNat 66).toNat : ℤ) - 65).emod 2 = 1 := by decide
  have h2 : ¬2 ≤ (((Char.ofNat 66).toNat : ℤ) - 65).emod 4 := by decide
  simp only [decode_keyframe, String.toList, h1, h2, if_pos, if_false,
    if_true, ite_true, ite_false, List.append_nil,
    parseF32_bytesHex tw htw, drop8_bytesHex, parseF32_bytesHex' vw hvw,
    Except.map, Option.getD]

theorem decode_flagA (tw : ℕ) (htw : tw < 2 ^ 32) (lv : ℚ) (lc : ℤ) :
    decode_keyframe
      ⟨Char.ofNat 65 :: (bytesHexUpper (packF32 tw) ++ ([] ++ []))⟩
      lv lc = .ok (b32val tw, lv, lc) := by
  have h1 : ¬(((Char.ofNat 65).toNat : ℤ) - 65).emod 2 = 1 := by decide
  have h2 : ¬2 ≤ (((Char.ofNat 65).toNat : ℤ) - 65).emod 4 := by decide
  simp only [decode_keyframe, String.toList, h1, h2, if_false, ite_true,
    ite_false, List.append_nil, parseF32_bytesHex' tw htw,
    Except.map, Option.getD]

/-- **C1** (codec round-trip): decoding the token produced by
`encode_keyframe time value curve_type last_v last_c`, supplying the same
previous value and previous curve type, returns the time exactly, the curve
type exactly, and the value within the codec's `1e-7` tolerance. `time` and
`value` range over binary32-representable rationals (the codec's value
domain), the curve type over `0..255`. -/
theorem C1_codec_round_trip (time value : ℚ) (curve_type : ℤ) (last_v : ℚ)
    (last_c : ℤ) (ht : repr32 time) (hv : repr32 value)
    (hc0 : 0 ≤ curve_type) (hc1 : curve_type < 256) :
    ∃ tok decoded_value,
      encode_keyframe time value curve_type last_v last_c = some tok ∧
      decode_keyframe tok last_v last_c = .ok (time, decoded_value, curve_type) ∧
      |decoded_value - value| ≤ kfTol := by
  have hrange : ¬(f32bits time / 2 ^ 23 % 2 ^ 8 = 255 ∨
      ((kfTol < |last_v - value|) ∧ f32bits value / 2 ^ 23 % 2 ^ 8 = 255) ∨
      ((last_c ≠ curve_type) ∧ ¬(0 ≤ curve_type ∧ curve_type < 256))) :=
    fun h => h.elim ht.2 (fun h' =>
      h'.elim (fun hx => hv.2 hx.2) (fun hx => hx.2 ⟨hc0, hc1⟩))
  have hbn : (curve_type.toNat : ℤ) = curve_type := Int.toNat_of_nonneg hc0
  have hblt : curve_type.toNat < 256 := by omega
  by_cases hval : kfTol < |last_v - value| <;>
    by_cases hcurve : last_c ≠ curve_type
  · refine ⟨⟨Char.ofNat 68 :: (bytesHexUpper (packF32 (f32bits time)) ++
      (bytesHexUpper (packF32 (f32bits value)) ++ byteHex curve_type.toNat))⟩,
      value, ?_, ?_, ?_⟩
    · simp only [encode_keyframe, if_pos hval, if_pos hcurve, if_neg hrange]
    · have h := decode_flagD (f32bits time) (f32bits value) curve_type.toNat
        (f32bits_lt time) (f32bits_lt value) hblt last_v last_c
      rw [ht.1, hv.1, hbn] at h
      exact h
    · simp [kfTol]
  · refine ⟨⟨Char.ofNat 66 :: (bytesHexUpper (packF32 (f32bits time)) ++
      (bytesHexUpper (packF32 (f32bits value)) ++ []))⟩, value, ?_, ?_, ?_⟩
    · simp only [encode_keyframe, if_pos hval, if_neg hcurve, if_neg hrange]
    · have h := decode_flagB (f32bits time) (f32bits value)
        (f32bits_lt time) (f32bits_lt value) last_v last_c
      rw [ht.1, hv.1] at h
      rw [h, not_ne_iff.mp hcurve]
    · simp [kfTol]
  · refine ⟨⟨Char.ofNat 67 :: (bytesHexUpper (packF32 (f32bits time)) ++
      ([] ++ byteHex curve_type.toNat))⟩, last_v, ?_, ?_, ?_⟩
    · simp only [encode_keyframe, if_neg hval, if_pos hcurve, if_neg hrange]
    · have h := decode_flagC (f32bits time) curve_type.toNat
        (f32bits_lt time) hblt last_v last_c
      rw [ht.1, hbn] at h
      exact h
    · exact not_lt.mp hval
  · refine ⟨⟨Char.ofNat 65 :: (bytesHexUpper (packF32 (f32bits time)) ++
      ([] ++ []))⟩, last_v, ?_, ?_, ?_⟩
    · simp only [encode_keyframe, if_neg hval, if_neg hcurve, if_neg hrange]
    · have h := decode_flagA (f32bits time) (f32bits_lt time) last_v last_c
      rw [ht.1] at h
      rw [h, not_ne_iff.mp hcurve]
    · exact not_lt.mp hval

/-- Witness for C1 at `time = 5/4`, `value = -21/2`, `curveType = 3`,
`prevValue = 0`, `prevCurveType = 0`. -/
theorem C1_codec_round_trip_witness :
    ∃ tok decoded_value,
      encode_keyframe (5/4) (-21/2) 3 0 0 = some tok ∧
      decode_keyframe tok 0 0 = .ok (5/4, decoded_value, 3) ∧
      |decoded_value - (-21/2)| ≤ kfTol :=
  C1_codec_round_trip (5/4) (-21/2) 3 0 0 (by with_unfolding_all decide)
    (by with_unfolding_all decide) (by decide) (by decide)

/-! ### C5: truncated tokens fail to decode -/

theorem hexPairs_length :
    ∀ (cs : List Char) (bs : List ℕ), hexPairs cs = some bs →
      cs.length = 2 * bs.length
  | [], bs, h => by
    simp only [hexPairs, Option.some.injEq] at h
    subst h; rfl
  | [c], bs, h => by simp [hexPairs] at h
  | c1 :: c2 :: rest, bs, h => by
    simp only [hexPairs] at h
    cases h1 : hexDigitVal c1 <;> rw [h1] at h <;>
      [skip; cases h2 : hexDigitVal c2 <;> rw [h2] at h] <;>
      [simp at h; simp at h; skip]
    cases h3 : hexPairs rest with
    | none => rw [h3] at h; simp at h
    | some tl =>
      rw [h3] at h
      simp only [Option.some.injEq] at h
      subst h
      have := hexPairs_length rest tl h3
      simp [this]
      omega

theorem unpackF32_none {bs : List ℕ} (h : bs.length ≠ 4) :
    unpackF32 bs = none := by
  unfold unpackF32
  split
  · rename_i b0 b1 b2 b3
    simp at h
  · rfl

theorem unpackU8_none {bs : List ℕ} (h : bs.length ≠ 1) :
    unpackU8 bs = none := by
  unfold unpackU8
  split
  · rename_i b
    simp at h
  · rfl

theorem fromhex_length {cs : List Char} {bs : List ℕ} (h : fromhex cs = some bs) :
    2 * bs.length ≤ cs.length := by
  unfold fromhex at h
  have h1 := hexPairs_length _ _ h
  have h2 : (cs.filter (· ≠ ' ')).length ≤ cs.length :=
    List.length_filter_le _ _
  omega

theorem parseF32_short (cs : List Char) (h : cs.length < 8) :
    ∃ e, parseF32 cs = .error e := by
  unfold parseF32
  cases hfh : fromhex cs with
  | none => exact ⟨_, rfl⟩
  | some bs =>
    have hb := fromhex_length hfh
    have hu : unpackF32 bs = none := unpackF32_none (by omega)
    exact ⟨"unpack requires a buffer of 4 bytes", by simp only [hu]⟩

theorem parseU8_short (cs : List Char) (h : cs.length < 2) :
    ∃ e, parseU8 cs = .error e := by
  unfold parseU8
  cases hfh : fromhex cs with
  | none => exact ⟨_, rfl⟩
  | some bs =>
    have hb := fromhex_length hfh
    have hu : unpackU8 bs = none := unpackU8_none (by omega)
    exact ⟨"unpack requires a buffer of 1 bytes", by simp only [hu]⟩

/-- **C5** (codec decode failure): for every previous value and previous
curve type, decoding fails with a structured error whenever the token is
empty or shorter than its flag byte demands (1 flag + 8 time hex
characters, + 8 when the value bit is set, + 2 when the curve-type bit is
set). -/
theorem C5_decode_malformed (s : String) (last_v : ℚ) (last_c : ℤ)
    (h : s.length < demandedLength s) :
    ∃ e, decode_keyframe s last_v last_c = .error e := by
  have hLd : s.length = s.data.length := rfl
  cases hs : s.data with
  | nil => exact ⟨"Encoded string is empty", by simp [decode_keyframe, hs]⟩
  | cons c rest =>
    have hsL : s.toList = c :: rest := hs
    rw [hs] at hLd
    simp only [List.length_cons] at hLd
    simp only [demandedLength, hsL] at h
    by_cases hv : ((c.toNat : ℤ) - 65).emod 2 = 1 <;>
      by_cases hc : 2 ≤ ((c.toNat : ℤ) - 65).emod 4
    · -- value and curve demanded: total 19
      rw [if_pos hv, if_pos hc] at h
      by_cases ht8 : rest.length < 8
      · obtain ⟨e, he⟩ := parseF32_short (rest.take 8)
          (by simp [List.length_take]; omega)
        exact ⟨e, by simp only [decode_keyframe, hsL, he]⟩
      · cases hpt : parseF32 (rest.take 8) with
        | error e => exact ⟨e, by simp only [decode_keyframe, hsL, hpt]⟩
        | ok t =>
          by_cases hv8 : rest.length < 16
          · obtain ⟨e, he⟩ := parseF32_short ((rest.drop 8).take 8)
              (by simp [List.length_take, List.length_drop]; omega)
            exact ⟨e, by
              simp only [decode_keyframe, hsL, hpt, if_pos hv, he, Except.map]⟩
          · cases hpv : parseF32 ((rest.drop 8).take 8) with
            | error e => exact ⟨e, by
                simp only [decode_keyframe, hsL, hpt, if_pos hv, hpv,
                  Except.map]⟩
            | ok v =>
              obtain ⟨e, he⟩ := parseU8_short (((rest.drop 8).drop 8).take 2)
                (by simp [List.length_take, List.length_drop]; omega)
              exact ⟨e, by
                simp only [decode_keyframe, hsL, hpt, if_pos hv, hpv,
                  if_pos hc, he, Except.map]⟩
    · -- value demanded only: total 17, so the value slice is short
      rw [if_pos hv, if_neg hc] at h
      by_cases ht8 : rest.length < 8
      · obtain ⟨e, he⟩ := parseF32_short (rest.take 8)
          (by simp [List.length_take]; omega)
        exact ⟨e, by simp only [decode_keyframe, hsL, he]⟩
      · cases hpt : parseF32 (rest.take 8) with
        | error e => exact ⟨e, by simp only [decode_keyframe, hsL, hpt]⟩
        | ok t =>
          obtain ⟨e, he⟩ := parseF32_short ((rest.drop 8).take 8)
            (by simp [List.length_take, List.length_drop]; omega)
          exact ⟨e, by
            simp only [decode_keyframe, hsL, hpt, if_pos hv, he, Except.map]⟩
    · -- curve demanded only: total 11
      rw [if_neg hv, if_pos hc] at h
      by_cases ht8 : rest.length < 8
      · obtain ⟨e, he⟩ := parseF32_short (rest.take 8)
          (by simp [List.length_take]; omega)
        exact ⟨e, by simp only [decode_keyframe, hsL, he]⟩
      · cases hpt : parseF32 (rest.take 8) with
        | error e => exact ⟨e, by simp only [decode_keyframe, hsL, hpt]⟩
        | ok t =>
          obtain ⟨e, he⟩ := parseU8_short ((rest.drop 8).take 2)
            (by simp [List.length_take, List.length_drop]; omega)
          exact ⟨e, by
            simp only [decode_keyframe, hsL, hpt, if_neg hv, if_pos hc, he,
              Except.map]⟩
    · -- neither flag: total 9, so the time slice is short
      rw [if_neg hv, if_neg hc] at h
      obtain ⟨e, he⟩ := parseF32_short (rest.take 8)
        (by simp [List.length_take]; omega)
      exact ⟨e, by simp only [decode_keyframe, hsL, he]⟩

/-- Witness for C5: the 9-character-demand token `"A000080"` is truncated. -/
theorem C5_decode_malformed_witness :
    ∃ e, decode_keyframe "A000080" 0 3 = .error e :=
  C5_decode_malformed "A000080" 0 3 (by decide)

/-! ## Data model (data_models.py)

Keyframe containers (`FloatParams` values, controller axis curves) hold JSON
values whose well-formed content is arrays of encoded keyframe strings;
passthrough fields are kept as raw JSON. Python's builtin stable `sorted` is
modelled by `List.insertionSort` (any two stable sorts by the same key
coincide). -/

structure FloatParameter where
  storable : String
  name : String
  value : Json
  min : Option Json
  max : Option Json
deriving Repr

structure ControllerTarget where
  id : String
  properties : List (String × Json)
deriving Repr

structure TriggerGroup where
  name : String
  live : Json
  triggers : Json
deriving Repr

structure AnimationClip where
  name : String
  segment : String
  layer : String
  length : ℚ
  order_index : ℤ
  atom_id : Option String
  storable_id : Option String
  other_properties : List (String × Json)
  float_params : List FloatParameter
  controllers : List ControllerTarget
  trigger_groups : List TriggerGroup
deriving Repr

structure AnimationFile where
  version : Option String
  atom_type : Option String
  clips : List AnimationClip
  is_scene : Bool
  original_json : Option Json := none
deriving Repr

/-! ## Parsing (from_dict) and serialization (to_dict)

The JSON parse is typed: fields that the code reads as strings must be
strings (or absent, where the code supplies a default); a document giving
them another shape is treated as a load error. This tightens Python's
dynamic behaviour only on documents outside the format. -/

/-- `data.get(k, dflt)` where the field is used as a string. -/
def requireStrD (data : List (String × Json)) (k dflt : String) :
    Except String String :=
  match jsonLookup data k with
  | none => .ok dflt
  | some (.str s) => .ok s
  | some _ => .error (k ++ " is not a string")

/-- `data.get(k)` where the field is used as a string when present. -/
def getOptStr (data : List (String × Json)) (k : String) :
    Except String (Option String) :=
  match jsonLookup data k with
  | none => .ok none
  | some (.str s) => .ok (some s)
  | some _ => .error (k ++ " is not a string")

/-- `data.get(k)` where the field is required (used without default). -/
def requireStr (data : List (String × Json)) (k : String) :
    Except String String :=
  match jsonLookup data k with
  | some (.str s) => .ok s
  | _ => .error (k ++ " is missing or not a string")

/-- Python `float(str)` on plain decimal notation (the format the
serializer emits); other strings fail with `ValueError`. -/
def parseDecimal (s : String) : Option ℚ :=
  let cs := s.data
  let (sign, cs) : ℚ × List Char :=
    match cs with
    | '-' :: rest => (-1, rest)
    | '+' :: rest => (1, rest)
    | _ => (1, cs)
  let intPart := cs.takeWhile (·.isDigit)
  let rest := cs.drop intPart.length
  let natval : List Char → ℚ := fun ds =>
    ((ds.foldl (fun n c => 10 * n + (c.toNat - 48)) 0 : ℕ) : ℚ)
  match rest with
  | [] => if intPart.isEmpty then none else some (sign * natval intPart)
  | '.' :: frac =>
    if frac.all (·.isDigit) ∧ ¬(intPart.isEmpty ∧ frac.isEmpty) then
      some (sign * (natval intPart + natval frac / (10 : ℚ) ^ frac.length))
    else none
  | _ => none

/-- Python `float(x)` on a JSON value (`TypeError` on null/array/object,
`ValueError` on a non-numeric string). -/
def parsePyFloat : Json → Except String ℚ
  | .num q => .ok q
  | .bool b => .ok (if b then 1 else 0)
  | .str s =>
    match parseDecimal s with
    | some q => .ok q
    | none => .error ("could not convert string to float: " ++ s)
  | _ => .error "float() argument must be a string or a real number"

/-- Fractional decimal digits of `q ∈ [0, 1)`, fuel-bounded. -/
def fracDigits : ℚ → ℕ → List Char
  | _, 0 => []
  | q, fuel + 1 =>
    if q = 0 then []
    else
      let d := (⌊q * 10⌋).toNat
      Char.ofNat (48 + d) :: fracDigits (q * 10 - (d : ℚ)) fuel

/-- Python `str(float)`: decimal rendering with at least one fractional
digit (`str(3.0) = "3.0"`). -/
def pyFloatRepr (q : ℚ) : String :=
  let sign := if q < 0 then "-" else ""
  let a := |q|
  let ip := (⌊a⌋).toNat
  let fr := a - (ip : ℚ)
  let frs := if fr = 0 then "0" else String.mk (fracDigits fr 40)
  sign ++ toString ip ++ "." ++ frs

/-- `FloatParameter.from_dict` (data_models.py lines 9–10). -/
def FloatParameter.from_dict (data : List (String × Json)) :
    Except String FloatParameter := do
  let storable ← requireStr data "Storable"
  let name ← requireStr data "Name"
  pure { storable, name,
         value := (jsonLookup data "Value").getD (.arr []),
         min := jsonLookup data "Min", max := jsonLookup data "Max" }

/-- `FloatParameter.to_dict` (data_models.py lines 11–15). -/
def FloatParameter.to_dict (p : FloatParameter) : Json :=
  .obj ([("Storable", .str p.storable), ("Name", .str p.name),
         ("Value", p.value)]
    ++ (match p.min with | some m => [("Min", m)] | none => [])
    ++ (match p.max with | some m => [("Max", m)] | none => []))

/-- The axis keys that `ControllerTarget.__init__` guarantees present
(data_models.py lines 20–21). -/
def ensureAxisKeys (props : List (String × Json)) : List (String × Json) :=
  ["X", "Y", "Z", "RotX", "RotY", "RotZ", "RotW"].foldl
    (fun ps k => if ps.any (fun p => p.1 = k) then ps else ps ++ [(k, .arr [])])
    props

/-- `ControllerTarget.from_dict` (data_models.py lines 22–25). -/
def ControllerTarget.from_dict (data : List (String × Json)) :
    Except String ControllerTarget := do
  let id ← requireStr data "Controller"
  pure { id,
         properties := ensureAxisKeys (data.filter (fun p => p.1 ≠ "Controller")) }

/-- `ControllerTarget.to_dict` (data_models.py lines 26–27). -/
def ControllerTarget.to_dict (c : ControllerTarget) : Json :=
  .obj (dictUpdate [("Controller", .str c.id)] c.properties)

/-- `TriggerGroup.from_dict` (data_models.py lines 36–42). -/
def TriggerGroup.from_dict (data : List (String × Json)) :
    Except String TriggerGroup := do
  let name ← requireStrD data "Name" "Unnamed Trigger"
  pure { name, live := (jsonLookup data "Live").getD (.str "0"),
         triggers := (jsonLookup data "Triggers").getD (.arr []) }

/-- `TriggerGroup.to_dict` (data_models.py lines 44–49). -/
def TriggerGroup.to_dict (tg : TriggerGroup) : Json :=
  .obj [("Name", .str tg.name), ("Live", tg.live), ("Triggers", tg.triggers)]

def known_keys : List String :=
  ["AnimationName", "AnimationSegment", "AnimationLayer", "AnimationLength",
   "FloatParams", "Controllers", "Triggers", "OrderIndex"]

/-- Parse a JSON array of objects with a per-object parser. -/
def parseObjList (parse : List (String × Json) → Except String α) :
    List Json → Except String (List α)
  | [] => .ok []
  | .obj fields :: rest => do
    let x ← parse fields
    let xs ← parseObjList parse rest
    pure (x :: xs)
  | _ :: _ => .error "list entry is not an object"

/-- `AnimationClip.from_dict` (data_models.py lines 65–88). -/
def AnimationClip.from_dict (data : List (String × Json))
    (atom_id : Option String) (storable_id : Option String)
    (order_index : ℤ) : Except String AnimationClip := do
  let name ← requireStrD data "AnimationName" "Unnamed"
  let segment ← requireStrD data "AnimationSegment" "Default"
  let layer ← requireStrD data "AnimationLayer" "Default"
  let length ← match jsonLookup data "AnimationLength" with
    | none => pure 0
    | some j => parsePyFloat j
  let float_params ← match jsonLookup data "FloatParams" with
    | none => pure []
    | some (.arr elems) => parseObjList FloatParameter.from_dict elems
    | some _ => .error "FloatParams is not a list"
  let controllers ← match jsonLookup data "Controllers" with
    | none => pure []
    | some (.arr elems) => parseObjList ControllerTarget.from_dict elems
    | some _ => .error "Controllers is not a list"
  let trigger_groups ← match jsonLookup data "Triggers" with
    | none => pure []
    | some (.arr elems) => parseObjList TriggerGroup.from_dict elems
    | some _ => .error "Triggers is not a list"
  pure { name, segment, layer, length, order_index, atom_id, storable_id,
         other_properties := data.filter (fun p => p.1 ∉ known_keys),
         float_params, controllers, trigger_groups }

/-- Lexicographic order on string pairs (Python tuple comparison). -/
def pairLe (a b : String × String) : Prop :=
  a.1 < b.1 ∨ (a.1 = b.1 ∧ a.2 ≤ b.2)

instance : DecidableRel pairLe := fun _ _ =>
  inferInstanceAs (Decidable (_ ∨ _))

/-- `sorted(self.float_params, key=lambda p: (p.storable, p.name))`. -/
def sortedFloatParams (c : AnimationClip) : List FloatParameter :=
  c.float_params.insertionSort
    (fun p q => pairLe (p.storable, p.name) (q.storable, q.name))

/-- `sorted(self.controllers, key=lambda c: c.id)`. -/
def sortedControllers (c : AnimationClip) : List ControllerTarget :=
  c.controllers.insertionSort (fun a b => a.id ≤ b.id)

/-- `sorted(self.trigger_groups, key=lambda tg: tg.name)`. -/
def sortedTriggerGroups (c : AnimationClip) : List TriggerGroup :=
  c.trigger_groups.insertionSort (fun a b => a.name ≤ b.name)

/-- `AnimationClip.to_dict` (data_models.py lines 90–101). -/
def AnimationClip.to_dict (c : AnimationClip) : Json :=
  let data := [("AnimationName", Json.str c.name),
               ("AnimationSegment", Json.str c.segment),
               ("AnimationLayer", Json.str c.layer),
               ("AnimationLength", Json.str (pyFloatRepr c.length))]
  let data := dictUpdate data c.other_properties
  let data := if ¬c.float_params.isEmpty then
      dictSet data "FloatParams"
        (.arr ((sortedFloatParams c).map FloatParameter.to_dict))
    else data
  let data := if ¬c.controllers.isEmpty then
      dictSet data "Controllers"
        (.arr ((sortedControllers c).map ControllerTarget.to_dict))
    else data
  let data := if ¬c.trigger_groups.isEmpty then
      dictSet data "Triggers"
        (.arr ((sortedTriggerGroups c).map TriggerGroup.to_dict))
    else data
  .obj data

def optStrJson : Option String → Json
  | none => .null
  | some s => .str s

/-- `sorted(self.clips, key=lambda c: c.order_index)`. -/
def sortedClips (f : AnimationFile) : List AnimationClip :=
  f.clips.insertionSort (fun a b => a.order_index ≤ b.order_index)

/-- `AnimationFile.to_dict` (data_models.py lines 111–118); scene files
raise (`none`). -/
def AnimationFile.to_dict (f : AnimationFile) : Option Json :=
  if f.is_scene then none
  else
    some (.obj [("SerializeVersion", optStrJson f.version),
                ("AtomType", optStrJson f.atom_type),
                ("Clips", .arr ((sortedClips f).map AnimationClip.to_dict))])

/-! ## Loading (app_logic.py lines 29–72) -/

/-- Substring test (Python `pat in s`). -/
def containsSubstr (s pat : String) : Bool := (s.splitOn pat).length > 1

/-- Parse a `Clips` array, enumerating `order_index` from `i`. -/
def parseClipsList (atom_id storable_id : Option String) :
    List Json → ℤ → Except String (List AnimationClip)
  | [], _ => .ok []
  | .obj fields :: rest, i => do
    let c ← AnimationClip.from_dict fields atom_id storable_id i
    let cs ← parseClipsList atom_id storable_id rest (i + 1)
    pure (c :: cs)
  | _ :: _, _ => .error "clip is not an object"

/-- The storables loop of the scene branch (app_logic.py lines 44–51). -/
def parseSceneAtomStorables (atom_id : String) :
    List Json → Except String (List AnimationClip)
  | [] => .ok []
  | .obj st :: rest => do
    let storable_id ← match jsonLookup st "id" with
      | some (.str s) => Except.ok s
      | none => Except.ok ""
      | some _ => Except.error "storable id is not a string"
    let here ←
      if containsSubstr storable_id "_VamTimeline.AtomPlugin" then
        match jsonLookup st "Animation" with
        | some (.obj anim) =>
          if ¬anim.isEmpty ∧ hasKey anim "Clips" then
            match jsonLookup anim "Clips" with
            | some (.arr elems) =>
              parseClipsList (some atom_id) (some storable_id) elems 0
            | some _ => .error "Clips is not a list"
            | none => pure []
          else pure []
        | some .null => pure []
        | none => pure []
        | some _ => .error "Animation is not an object"
      else pure []
    let more ← parseSceneAtomStorables atom_id rest
    pure (here ++ more)
  | _ :: _ => .error "storable is not an object"

/-- The atoms loop of the scene branch (app_logic.py lines 41–51);
atoms with a missing/empty id are skipped. -/
def parseSceneAtoms : List Json → Except String (List AnimationClip)
  | [] => .ok []
  | .obj atom :: rest => do
    let here ← match jsonLookup atom "id" with
      | some (.str s) =>
        if s = "" then Except.ok []
        else
          match (jsonLookup atom "storables").getD (.arr []) with
          | .arr sts => parseSceneAtomStorables s sts
          | _ => Except.error "storables is not a list"
      | none => Except.ok []
      | some .null => Except.ok []
      | some _ => Except.error "atom id is not a string"
    let more ← parseSceneAtoms rest
    pure (here ++ more)
  | _ :: _ => .error "atom is not an object"

/-- The scene branch of `load_file` (app_logic.py lines 37–52). -/
def parseScene (data : List (String × Json)) : Except String AnimationFile := do
  let clips ← match (jsonLookup data "atoms").getD (.arr []) with
    | .arr atoms => parseSceneAtoms atoms
    | _ => .error "atoms is not a list"
  pure { version := none, atom_type := none, clips, is_scene := true,
         original_json := some (.obj data) }

/-- The standalone branch of `load_file` (app_logic.py lines 53–60). -/
def parseStandalone (data : List (String × Json)) :
    Except String AnimationFile := do
  let version ← getOptStr data "SerializeVersion"
  let atom_type ← getOptStr data "AtomType"
  let clips ← match jsonLookup data "Clips" with
    | none => Except.ok []
    | some (.arr elems) => parseClipsList (some "(Standalone)") none elems 0
    | some _ => Except.error "Clips is not a list"
  pure { version, atom_type, clips, is_scene := false }

/-- Dispatch on `"atoms" in data` (app_logic.py line 34). -/
def parseAnimationFile (data : List (String × Json)) :
    Except String AnimationFile :=
  if hasKey data "atoms" then parseScene data else parseStandalone data

structure AppState where
  animation_file : Option AnimationFile
  current_file_path : Option String
deriving Repr

/-- `AppLogic.load_file` (app_logic.py lines 29–72). `read_result` is the
outcome of `open` + `json.load`; any failure (unreadable file, invalid
JSON, malformed clip data) lands in the `except` branch, which resets both
`animation_file` and `current_file_path` to `None` and reports the error. -/
def load_file (_st : AppState) (file_name : String)
    (read_result : Except String Json) : AppState × Option String :=
  match read_result with
  | .error e => (⟨none, none⟩, some e)
  | .ok (.obj fields) =>
    match parseAnimationFile fields with
    | .ok af => ({ animation_file := some af,
                   current_file_path := some file_name }, none)
    | .error e => (⟨none, none⟩, some e)
  | .ok _ => (⟨none, none⟩, some "document is not an object")

/-! ## Position delta transform (app_logic.py lines 549–577) -/

/-- Extract the encoded keyframe strings of an axis curve; a non-array value
or a non-string element makes the per-clip processing fail (in Python the
iteration / `decode_keyframe` raises, caught by the per-clip handler). -/
def jsonKfStrings : Json → Except String (List String)
  | .arr elems =>
    elems.foldr
      (fun j acc =>
        match j, acc with
        | .str s, .ok rest => .ok (s :: rest)
        | _, .ok _ => .error "keyframe is not a string"
        | _, .error e => .error e)
      (.ok [])
  | _ => .error "axis keyframes are not a list"

/-- The decode of every keyframe of an axis against the constant state
`(0.0, 3)` — exactly the list comprehension at app_logic.py line 565. -/
def decodeAll : List String → Except String (List (ℚ × ℚ × ℤ))
  | [] => .ok []
  | kf :: rest =>
    match decode_keyframe kf 0 3, decodeAll rest with
    | .ok r, .ok rs => .ok (r :: rs)
    | .error e, _ => .error e
    | _, .error e => .error e

/-- `sorted(..., key=lambda k: k[0])` (stable). -/
def sortByTime (ks : List (ℚ × ℚ × ℤ)) : List (ℚ × ℚ × ℤ) :=
  ks.insertionSort (fun a b => a.1 ≤ b.1)

/-- The re-encode fold of app_logic.py lines 568–572: shift each decoded
value by the delta and encode against the carried `(last_v, last_c)`. -/
def encode_shifted (current_delta : ℚ) :
    List (ℚ × ℚ × ℤ) → ℚ → ℤ → Except String (List String)
  | [], _, _ => .ok []
  | (t, v, c) :: rest, last_v, last_c =>
    let new_v := v + current_delta
    match encode_keyframe t new_v c last_v last_c with
    | none => .error "struct.error"
    | some s =>
      match encode_shifted current_delta rest new_v c with
      | .ok tail => .ok (s :: tail)
      | .error e => .error e

/-- The per-axis body of `_apply_position_delta_to_clips`
(app_logic.py lines 562–573). -/
def apply_delta_axis (kfs : List String) (current_delta : ℚ) :
    Except String (List String) :=
  match decodeAll kfs with
  | .error e => .error e
  | .ok decoded => encode_shifted current_delta (sortByTime decoded) 0 3

/-- The X/Y/Z axis loop of `_apply_position_delta_to_clips`
(lines 556–573); an error keeps the axes already rewritten (in-place
mutation up to the raise) and aborts the remaining axes. -/
def controller_axes_apply :
    List (String × ℚ) → ControllerTarget → ControllerTarget × Option String
  | [], ctrl => (ctrl, none)
  | (axis, d) :: rest, ctrl =>
    match jsonLookup ctrl.properties axis with
    | none => controller_axes_apply rest ctrl
    | some kfsJson =>
      if |d| ≤ 1 / 1000000 then controller_axes_apply rest ctrl
      else
        match
          (match jsonKfStrings kfsJson with
           | .error e => .error e
           | .ok ks => apply_delta_axis ks d : Except String (List String))
        with
        | .error e => (ctrl, some e)
        | .ok newKfs =>
          controller_axes_apply rest
            { ctrl with
                properties :=
                  dictSet ctrl.properties axis (.arr (newKfs.map .str)) }

/-- The controller loop of `_apply_position_delta_to_clips`
(lines 553–573): controllers whose id ends in `"Rotation"` are skipped; an
exception keeps the controllers already processed and aborts the rest. -/
def controllers_apply (delta : ℚ × ℚ × ℚ) :
    List ControllerTarget → List ControllerTarget × Option String
  | [] => ([], none)
  | ctrl :: rest =>
    if ctrl.id.endsWith "Rotation" then
      let (rs, err) := controllers_apply delta rest
      (ctrl :: rs, err)
    else
      match controller_axes_apply
          [("X", delta.1), ("Y", delta.2.1), ("Z", delta.2.2)] ctrl with
      | (ctrl', some e) => (ctrl' :: rest, some e)
      | (ctrl', none) =>
        let (rs, err) := controllers_apply delta rest
        (ctrl' :: rs, err)

/-- One clip of `_apply_position_delta_to_clips`: the per-clip `try` of
lines 551–576. The `Bool` reports whether the clip completed without
error. -/
def clip_apply_delta (clip : AnimationClip) (delta : ℚ × ℚ × ℚ) :
    AnimationClip × Bool :=
  match controllers_apply delta clip.controllers with
  | (cs, none) => ({ clip with controllers := cs }, true)
  | (cs, some _) => ({ clip with controllers := cs }, false)

/-- `AppLogic._apply_position_delta_to_clips` (app_logic.py lines
549–577): returns the processed clips and `processed_count`. -/
def apply_position_delta_to_clips :
    List AnimationClip → ℚ × ℚ × ℚ → List AnimationClip × ℕ
  | [], _ => ([], 0)
  | clip :: rest, delta =>
    let (clip', ok) := clip_apply_delta clip delta
    let (rs, n) := apply_position_delta_to_clips rest delta
    (clip' :: rs, (if ok then 1 else 0) + n)

/-- Stateful replay decode of an axis keyframe sequence: each keyframe is
decoded against the carried-forward `(value, curveType)` of its
predecessor. This is the codec's documented decode discipline, implemented
by `get_pos_at_time` in app_logic.py lines 424–430. -/
def replayDecode : List String → ℚ → ℤ → Except String (List (ℚ × ℚ × ℤ))
  | [], _, _ => .ok []
  | kf :: rest, last_v, last_c =>
    match decode_keyframe kf last_v last_c with
    | .error e => .error e
    | .ok (t, v, c) =>
      match replayDecode rest v c with
      | .ok tail => .ok ((t, v, c) :: tail)
      | .error e => .error e

/-- A clip whose root controller's X axis stores an explicit value 5 at
t = 0 followed by a value-omitting keyframe at t = 1 (a delta-compressed
sequence, replaying to values (5, 5)). -/
def deltaBugClip : AnimationClip where
  name := "Walk"
  segment := "S1"
  layer := "L1"
  length := 1
  order_index := 0
  atom_id := some "(Standalone)"
  storable_id := none
  other_properties := []
  float_params := []
  controllers :=
    [{ id := "control",
       properties :=
         [("X", .arr [.str "B000000000000A040", .str "A0000803F"])] }]
  trigger_groups := []

/-- **C2** (code-bug evidence): `_apply_position_delta_to_clips` decodes
every keyframe against the constant state `(0.0, 3)` (app_logic.py line
565) instead of replaying the sequence statefully, so a value-omitting
keyframe decodes to `0.0` rather than its predecessor's value. On the axis
`[explicit 5 @ t=0, value-omitted @ t=1]` (replaying to values `(5, 5)`)
with delta `1`, the replaced sequence replays to values `(6, 1)` — the
second keyframe is not shifted by the delta as the claim (and spec §4.1's
decode discipline) requires. -/
theorem C2_delta_decode_not_stateful :
    replayDecode ["B000000000000A040", "A0000803F"] 0 3 =
      .ok [(0, 5, 3), (1, 5, 3)] ∧
    apply_delta_axis ["B000000000000A040", "A0000803F"] 1 =
      .ok ["B000000000000C040", "B0000803F0000803F"] ∧
    apply_position_delta_to_clips [deltaBugClip] (1, 0, 0) =
      ([{ deltaBugClip with
            controllers :=
              [{ id := "control",
                 properties :=
                   [("X", .arr [.str "B000000000000C040",
                                .str "B0000803F0000803F"])] }] }], 1) ∧
    replayDecode ["B000000000000C040", "B0000803F0000803F"] 0 3 =
      .ok [(0, 6, 3), (1, 1, 3)] ∧
    replayDecode ["B000000000000C040", "B0000803F0000803F"] 0 3 ≠
      .ok [(0, 5 + 1, 3), (1, 5 + 1, 3)] := by
  refine ⟨by with_unfolding_all rfl, by with_unfolding_all rfl,
    by with_unfolding_all rfl, by with_unfolding_all rfl, ?_⟩
  intro h
  rw [show (5 + 1 : ℚ) = 6 by norm_num] at h
  have h3 : replayDecode ["B000000000000C040", "B0000803F0000803F"] 0 3 =
      .ok [(0, 6, 3), (1, 1, 3)] := by with_unfolding_all rfl
  rw [h3] at h
  simp only [Except.ok.injEq, List.cons.injEq, Prod.mk.injEq] at h
  norm_num at h

/-! ## Merge engine: same-file layer merge (app_logic.py lines 83–180) -/

/-- The filter of `AppLogic.get_layer_clips` (lines 83–86). -/
def inLayerB (is_scene : Bool) (c : AnimationClip) (atom_id : String)
    (seg_name layer_name : String) : Bool :=
  (!is_scene || c.atom_id == some atom_id) && c.segment == seg_name &&
    c.layer == layer_name

/-- `AppLogic.get_layer_clips` (lines 83–86). -/
def get_layer_clips (af : AnimationFile) (atom_id : String)
    (seg_name layer_name : String) : List AnimationClip :=
  af.clips.filter (fun c => inLayerB af.is_scene c atom_id seg_name layer_name)

/-- `AppLogic._get_layer_signature` (lines 88–103): the three identity-key
sets of a layer's targets (frozensets modelled as lists compared as sets). -/
def layerSignature (atom_id seg_name layer_name : String)
    (source : List AnimationClip) :
    List (String × String) × List String × List String :=
  let clips_in_layer := source.filter (fun c =>
    c.atom_id == some atom_id && c.segment == seg_name &&
      c.layer == layer_name)
  ((clips_in_layer.map (fun c =>
      c.float_params.map (fun p => (p.storable, p.name)))).flatten,
   (clips_in_layer.map (fun c => c.controllers.map (·.id))).flatten,
   (clips_in_layer.map (fun c => c.trigger_groups.map (·.name))).flatten)

/-- Set equality of lists (frozenset `==`). -/
def listSetEqB [BEq α] (a b : List α) : Bool :=
  a.all (b.contains ·) && b.all (a.contains ·)

/-- Equality of two layer signatures (three pairwise frozenset
equalities). -/
def sigEqB (s1 s2 : List (String × String) × List String × List String) :
    Bool :=
  listSetEqB s1.1 s2.1 && listSetEqB s1.2.1 s2.2.1 && listSetEqB s1.2.2 s2.2.2

/-- Python dict insert-or-overwrite, the semantics of repeated
`d[k] = v` in a dict comprehension (first-insertion key order, last
assignment wins). -/
def assocUpsert [BEq κ] : List (κ × α) → κ → α → List (κ × α)
  | [], k, x => [(k, x)]
  | p :: rest, k, x =>
    if p.1 == k then (k, x) :: rest else p :: assocUpsert rest k x

def assocLookup [BEq κ] (m : List (κ × α)) (k : κ) : Option α :=
  (m.find? (fun p => p.1 == k)).map (·.2)

/-- `master_fp = {(p.storable, p.name): p for clip in all_clips for p in
clip.float_params}` (app_logic.py line 119). -/
def buildMasterFP (all_clips : List AnimationClip) :
    List ((String × String) × FloatParameter) :=
  all_clips.foldl
    (fun m clip =>
      clip.float_params.foldl
        (fun m p => assocUpsert m (p.storable, p.name) p) m) []

/-- `master_c = {c.id: c for clip in all_clips for c in clip.controllers}`
(line 120). -/
def buildMasterC (all_clips : List AnimationClip) :
    List (String × ControllerTarget) :=
  all_clips.foldl
    (fun m clip =>
      clip.controllers.foldl (fun m c => assocUpsert m c.id c) m) []

/-- `master_tg = {tg.name: tg for clip in all_clips for tg in
clip.trigger_groups}` (line 121). -/
def buildMasterTG (all_clips : List AnimationClip) :
    List (String × TriggerGroup) :=
  all_clips.foldl
    (fun m clip =>
      clip.trigger_groups.foldl (fun m tg => assocUpsert m tg.name tg) m) []

/-- Search `cand 0, cand 1, …` for a name not in `taken` (the Python
`while` loops of lines 143–146, 232–235 and 253–255). The search is
fuel-bounded with a provably-fresh concatenation fallback; the fallback is
unreachable because numbered candidates are pairwise distinct. -/
def freshNameFrom (cand : ℕ → String) (taken : List String) : String :=
  match (List.range (taken.length + 1)).find?
      (fun k => !taken.contains (cand k)) with
  | some k => cand k
  | none => taken.foldl (· ++ ·) "" ++ cand 0

/-- The trigger-group rename of lines 142–148: `"{base} (merged)"`, then
`"{base} (merged 2)"`, `"{base} (merged 3)"`, … until unused. -/
def mergedTgName (base : String) (taken : List String) : String :=
  freshNameFrom
    (fun k => if k = 0 then base ++ " (merged)"
              else base ++ " (merged " ++ toString (k + 1) ++ ")") taken

/-- Fold one source trigger group into a target clip's groups
(lines 137–149): append when the name is free, else deep-clone under a
collision-avoiding name (target names recomputed each step). -/
def addSrcTriggerGroups (tgs src_tgs : List TriggerGroup) :
    List TriggerGroup :=
  src_tgs.foldl
    (fun acc stg =>
      let names := acc.map (·.name)
      if names.contains stg.name then
        acc ++ [{ stg with name := mergedTgName stg.name names }]
      else acc ++ [stg]) tgs

/-- Merge a same-named source clip into its matching target clip
(lines 126–149): append the source targets whose identity key is absent
(key sets snapshot before each loop). -/
def mergeIntoClip (tgt src : AnimationClip) : AnimationClip :=
  let existing_fp := tgt.float_params.map (fun p => (p.storable, p.name))
  let fps := tgt.float_params ++
    src.float_params.filter
      (fun p => !existing_fp.contains (p.storable, p.name))
  let existing_c := tgt.controllers.map (·.id)
  let cts := tgt.controllers ++
    src.controllers.filter (fun c => !existing_c.contains c.id)
  let tgs := addSrcTriggerGroups tgt.trigger_groups src.trigger_groups
  { tgt with float_params := fps, controllers := cts, trigger_groups := tgs }

/-- `(encode_keyframe …).getD ""`: the encoder cannot fail at the
harmonization call sites (curve type 3, values 0/1); Python would raise
out of the merge on an out-of-range length. -/
def encOrEmpty (time value : ℚ) (ct : ℤ) (lv : ℚ) (lc : ℤ) : String :=
  (encode_keyframe time value ct lv lc).getD ""

/-- The flat zero two-keyframe curve of lines 160 and 168. -/
def defaultZeroCurve (len : ℚ) : List String :=
  [encOrEmpty 0 0 3 0 (-1), encOrEmpty len 0 3 0 3]

/-- The flat one (identity-quaternion `RotW`) curve of line 169. -/
def defaultOneCurve (len : ℚ) : List String :=
  [encOrEmpty 0 1 3 0 (-1), encOrEmpty len 1 3 1 3]

/-- The harmonization pass over one target-layer clip (lines 156–177):
append a default target for every master key the clip is missing. -/
def harmonizeClip (master_fp : List ((String × String) × FloatParameter))
    (master_c : List (String × ControllerTarget))
    (master_tg : List (String × TriggerGroup)) (clip : AnimationClip) :
    AnimationClip :=
  let clip_fp_keys := clip.float_params.map (fun p => (p.storable, p.name))
  let newFps := (master_fp.filter
      (fun kv => !clip_fp_keys.contains kv.1)).map
    (fun kv =>
      { storable := kv.2.storable, name := kv.2.name,
        value := .arr ((defaultZeroCurve clip.length).map .str),
        min := kv.2.min, max := kv.2.max } : _ → FloatParameter)
  let clip_c_ids := clip.controllers.map (·.id)
  let newCs := (master_c.filter (fun kv => !clip_c_ids.contains kv.1)).map
    (fun kv =>
      let props := ensureAxisKeys kv.2.properties
      let props := ["X", "Y", "Z", "RotX", "RotY", "RotZ"].foldl
        (fun ps ax =>
          dictSet ps ax (.arr ((defaultZeroCurve clip.length).map .str)))
        props
      let props := dictSet props "RotW"
        (.arr ((defaultOneCurve clip.length).map .str))
      { id := kv.1, properties := props } : _ → ControllerTarget)
  let clip_tg_names := clip.trigger_groups.map (·.name)
  let newTgs := (master_tg.filter
      (fun kv => !clip_tg_names.contains kv.1)).map
    (fun kv =>
      { name := kv.1, live := kv.2.live,
        triggers := .arr [.obj
          [("startTime", .str "0"),
           ("endTime", .str (pyFloatRepr clip.length)),
           ("startActions", .arr []), ("transitionActions", .arr []),
           ("endActions", .arr [])]] } : _ → TriggerGroup)
  { clip with float_params := clip.float_params ++ newFps,
              controllers := clip.controllers ++ newCs,
              trigger_groups := clip.trigger_groups ++ newTgs }

/-- Clip identity is modelled by the clip's position in the collection
(Python object identity): lookup by index. -/
def lookupIdx (state : List (ℕ × AnimationClip)) (i : ℕ) :
    Option AnimationClip :=
  (state.find? (fun p => p.1 = i)).map (·.2)

def updateIdx (state : List (ℕ × AnimationClip)) (i : ℕ)
    (f : AnimationClip → AnimationClip) : List (ℕ × AnimationClip) :=
  state.map (fun p => if p.1 = i then (p.1, f p.2) else p)

def removeIdx (state : List (ℕ × AnimationClip)) (i : ℕ) :
    List (ℕ × AnimationClip) :=
  state.filter (fun p => p.1 ≠ i)

/-- The per-source-clip loop of `merge_layers` (lines 123–153): a source
clip with a same-named clip among the (snapshotted) target clips is merged
into it and removed; otherwise it is reparented to the target layer. -/
def mergeSrcLoop (tgtIdx : List ℕ) (tgt_layer_name : String) :
    List ℕ → List (ℕ × AnimationClip) → List (ℕ × AnimationClip)
  | [], state => state
  | i :: rest, state =>
    match lookupIdx state i with
    | none => mergeSrcLoop tgtIdx tgt_layer_name rest state
    | some src_clip =>
      match tgtIdx.find? (fun j =>
          match lookupIdx state j with
          | some c => c.name == src_clip.name
          | none => false) with
      | some j =>
        mergeSrcLoop tgtIdx tgt_layer_name rest
          (removeIdx (updateIdx state j (fun tgt => mergeIntoClip tgt src_clip)) i)
      | none =>
        mergeSrcLoop tgtIdx tgt_layer_name rest
          (updateIdx state i (fun c => { c with layer := tgt_layer_name }))

/-- `AppLogic.merge_layers` (app_logic.py lines 105–180). -/
def merge_layers (af : AnimationFile)
    (src_layer_data tgt_layer_data : String × String × String) :
    AnimationFile × Option String :=
  let (src_atom_id, src_seg_name, src_layer_name) := src_layer_data
  let (tgt_atom_id, tgt_seg_name, tgt_layer_name) := tgt_layer_data
  if src_atom_id ≠ tgt_atom_id ∨ src_seg_name ≠ tgt_seg_name then
    (af, some "Layers can only be merged within the same segment of the same atom.")
  else
    let src_clips := get_layer_clips af src_atom_id src_seg_name src_layer_name
    let tgt_clips := get_layer_clips af tgt_atom_id tgt_seg_name tgt_layer_name
    let all_clips := src_clips ++ tgt_clips
    let master_fp := buildMasterFP all_clips
    let master_c := buildMasterC all_clips
    let master_tg := buildMasterTG all_clips
    let indexed := af.clips.enum
    let srcIdx := (indexed.filter (fun p =>
      inLayerB af.is_scene p.2 src_atom_id src_seg_name src_layer_name)).map (·.1)
    let tgtIdx := (indexed.filter (fun p =>
      inLayerB af.is_scene p.2 tgt_atom_id tgt_seg_name tgt_layer_name)).map (·.1)
    let state := mergeSrcLoop tgtIdx tgt_layer_name srcIdx indexed
    let state := state.map (fun p =>
      if inLayerB af.is_scene p.2 tgt_atom_id tgt_seg_name tgt_layer_name then
        (p.1, harmonizeClip master_fp master_c master_tg p.2)
      else p)
    ({ af with clips := state.map (·.2) }, none)

/-! ### C3: template selection in the master maps -/

theorem assocLookup_assocUpsert_self [BEq κ] [LawfulBEq κ]
    (m : List (κ × α)) (k : κ) (x : α) :
    assocLookup (assocUpsert m k x) k = some x := by
  induction m with
  | nil => simp [assocUpsert, assocLookup, List.find?]
  | cons p rest ih =>
    by_cases hp : (p.1 == k) = true
    · simp [assocUpsert, hp, assocLookup, List.find?]
    · simp only [assocUpsert, Bool.not_eq_true] at *
      rw [if_neg (by simp [hp])]
      simpa [assocLookup, List.find?, hp] using ih

theorem assocLookup_assocUpsert_ne [BEq κ] [LawfulBEq κ]
    (m : List (κ × α)) (k k' : κ) (x : α) (h : (k' == k) = false) :
    assocLookup (assocUpsert m k x) k' = assocLookup m k' := by
  have hkk : (k == k') = false := by
    simp only [beq_eq_false_iff_ne] at h ⊢
    exact fun hh => h hh.symm
  induction m with
  | nil => simp [assocUpsert, assocLookup, List.find?, hkk]
  | cons p rest ih =>
    by_cases hp : (p.1 == k) = true
    · have hp1 : p.1 = k := eq_of_beq hp
      simp only [assocUpsert, hp, if_true, ite_true]
      rw [assocLookup, assocLookup]
      simp [List.find?, hkk, hp1]
    · simp only [assocUpsert]
      rw [if_neg (by simp [hp])]
      by_cases hp' : (p.1 == k') = true
      · simp [assocLookup, List.find?, hp']
      · rw [assocLookup, assocLookup]
        simp only [List.find?, hp', Bool.false_eq_true, if_false]
        exact ih

/-- The value attached to the last pair carrying key `k`. -/
def lastPresented [BEq κ] (k : κ) : List (κ × α) → Option α
  | [] => none
  | p :: rest =>
    match lastPresented k rest with
    | some x => some x
    | none => if p.1 == k then some p.2 else none

theorem assocLookup_foldl_upsert [BEq κ] [LawfulBEq κ]
    (ps : List (κ × α)) (m : List (κ × α)) (k : κ) :
    assocLookup (ps.foldl (fun m p => assocUpsert m p.1 p.2) m) k =
      match lastPresented k ps with
      | some x => some x
      | none => assocLookup m k := by
  induction ps generalizing m with
  | nil => rfl
  | cons p rest ih =>
    rw [List.foldl_cons, ih]
    show _ = (match (match lastPresented k rest with
        | some x => some x
        | none => if p.1 == k then some p.2 else none : Option α) with
      | some x => some x
      | none => assocLookup m k)
    cases lastPresented k rest with
    | some x => rfl
    | none =>
      by_cases hp : (p.1 == k) = true
      · have hp1 : p.1 = k := eq_of_beq hp
        subst hp1
        simp [assocLookup_assocUpsert_self]
      · have hp0 : (p.1 == k) = false := by simpa using hp
        have hne : (k == p.1) = false := by
          rw [beq_eq_false_iff_ne] at hp0 ⊢
          exact fun hh => hp0 hh.symm
        rw [if_neg hp]
        exact assocLookup_assocUpsert_ne m p.1 k p.2 hne

/-- The `(identity key, template)` pairs presented by a clip list's float
parameters, in enumeration order (in `merge_layers` the union enumerates
source clips before target clips). -/
def fpPairs (clips : List AnimationClip) :
    List ((String × String) × FloatParameter) :=
  (clips.map (fun c =>
    c.float_params.map (fun p => ((p.storable, p.name), p)))).flatten

def cPairs (clips : List AnimationClip) :
    List (String × ControllerTarget) :=
  (clips.map (fun c => c.controllers.map (fun ct => (ct.id, ct)))).flatten

def tgPairs (clips : List AnimationClip) : List (String × TriggerGroup) :=
  (clips.map (fun c =>
    c.trigger_groups.map (fun tg => (tg.name, tg)))).flatten

theorem foldl_flatten_upsert [BEq κ]
    (L : List (List (κ × α))) (m : List (κ × α)) :
    L.flatten.foldl (fun m p => assocUpsert m p.1 p.2) m =
      L.foldl (fun acc l => l.foldl (fun m p => assocUpsert m p.1 p.2) acc) m := by
  induction L generalizing m with
  | nil => rfl
  | cons l L ih => rw [List.flatten_cons, List.foldl_append, List.foldl_cons, ih]

theorem buildMasterFP_eq_foldl (clips : List AnimationClip) :
    buildMasterFP clips =
      (fpPairs clips).foldl (fun m p => assocUpsert m p.1 p.2) [] := by
  rw [fpPairs, foldl_flatten_upsert, List.foldl_map]
  unfold buildMasterFP
  congr 1
  funext acc c
  rw [List.foldl_map]

theorem buildMasterC_eq_foldl (clips : List AnimationClip) :
    buildMasterC clips =
      (cPairs clips).foldl (fun m p => assocUpsert m p.1 p.2) [] := by
  rw [cPairs, foldl_flatten_upsert, List.foldl_map]
  unfold buildMasterC
  congr 1
  funext acc c
  rw [List.foldl_map]

theorem buildMasterTG_eq_foldl (clips : List AnimationClip) :
    buildMasterTG clips =
      (tgPairs clips).foldl (fun m p => assocUpsert m p.1 p.2) [] := by
  rw [tgPairs, foldl_flatten_upsert, List.foldl_map]
  unfold buildMasterTG
  congr 1
  funext acc c
  rw [List.foldl_map]

/-- **C3 (amended)**: a colliding key in the master maps keeps the template
from whichever clip presented that key **last** in the enumeration order
(source clips before target clips), because the Python dict comprehension
overwrites on reassignment; the harmonization pass therefore uses the
latest-enumerated clip's template. -/
theorem C3_amended_master_last_seen (clips : List AnimationClip)
    (kf : String × String) (kc kt : String) :
    assocLookup (buildMasterFP clips) kf = lastPresented kf (fpPairs clips) ∧
    assocLookup (buildMasterC clips) kc = lastPresented kc (cPairs clips) ∧
    assocLookup (buildMasterTG clips) kt = lastPresented kt (tgPairs clips) := by
  refine ⟨?_, ?_, ?_⟩
  · rw [buildMasterFP_eq_foldl, assocLookup_foldl_upsert]
    cases lastPresented kf (fpPairs clips) <;> rfl
  · rw [buildMasterC_eq_foldl, assocLookup_foldl_upsert]
    cases lastPresented kc (cPairs clips) <;> rfl
  · rw [buildMasterTG_eq_foldl, assocLookup_foldl_upsert]
    cases lastPresented kt (tgPairs clips) <;> rfl

/-- The three-clip file of the C3 counterexample: source layer `LayerA`
holds clip `S` carrying key `(Storable1, P)` with template `Min = "1"`;
target layer `LayerB` holds `T` carrying the same key with template
`Min = "2"`, and `U` missing the key. -/
def C3file : AnimationFile where
  version := none
  atom_type := none
  is_scene := false
  clips :=
    [{ name := "S", segment := "S1", layer := "LayerA", length := 2,
       order_index := 0, atom_id := some "Atom1", storable_id := none,
       other_properties := [],
       float_params := [{ storable := "Storable1", name := "P",
                          value := .arr [], min := some (.str "1"),
                          max := none }],
       controllers := [], trigger_groups := [] },
     { name := "T", segment := "S1", layer := "LayerB", length := 2,
       order_index := 1, atom_id := some "Atom1", storable_id := none,
       other_properties := [],
       float_params := [{ storable := "Storable1", name := "P",
                          value := .arr [], min := some (.str "2"),
                          max := none }],
       controllers := [], trigger_groups := [] },
     { name := "U", segment := "S1", layer := "LayerB", length := 2,
       order_index := 2, atom_id := some "Atom1", storable_id := none,
       other_properties := [], float_params := [], controllers := [],
       trigger_groups := [] }]

/-- **C3 counterexample**: merging `LayerA` into `LayerB` of `C3file`
harmonizes clip `U` with the template of the **later**-enumerated clip `T`
(`Min = "2"`), not the first-seen template of source clip `S`
(`Min = "1"`) — the claim's "first-seen wins" is false. -/
theorem C3_first_seen_counterexample :
    ∃ af', merge_layers C3file ("Atom1", "S1", "LayerA")
        ("Atom1", "S1", "LayerB") = (af', none) ∧
      af'.clips.map (fun c => (c.name, c.float_params.map (fun p => p.min))) =
        [("S", [some (.str "1")]), ("T", [some (.str "2")]),
         ("U", [some (.str "2")])] ∧
      (some (Json.str "2") : Option Json) ≠ some (Json.str "1") := by
  refine ⟨_, rfl, by with_unfolding_all rfl, ?_⟩
  intro h
  simp only [Option.some.injEq, Json.str.injEq] at h
  exact absurd h (by decide)

/-! ## Merge engine: cross-file import merge (app_logic.py lines 182–266) -/

inductive MergeFail where
  /-- A raised `MergeError`. -/
  | mergeError (msg : String)
  /-- Any other uncaught exception (e.g. clip construction raising). -/
  | pyError (msg : String)
deriving Repr

/-- The `MergeError` message of app_logic.py line 205, naming both atom
types (`None` rendering as Python prints it). -/
def mismatchedAtomTypesMsg (cur src : Option String) : String :=
  "Mismatched Atom Types.\nCurrent: " ++ cur.getD "None" ++
    "\nSource: " ++ src.getD "None"

/-- First-appearance order of the segments (Python dict key order of
`source_grouped`). -/
def segOrder (clips : List AnimationClip) : List String :=
  clips.foldl
    (fun ks c => if ks.contains c.segment then ks else ks ++ [c.segment]) []

/-- First-appearance order of the layers within one segment. -/
def layerOrderInSeg (clips : List AnimationClip) (seg : String) :
    List String :=
  (clips.filter (fun c => c.segment == seg)).foldl
    (fun ks c => if ks.contains c.layer then ks else ks ++ [c.layer]) []

/-- `source_grouped` (lines 210–212) flattened to `(segment, layer,
clips)` triples in Python's nested dict iteration order. -/
def groupBySegLayer (clips : List AnimationClip) :
    List (String × String × List AnimationClip) :=
  ((segOrder clips).map (fun seg =>
    (layerOrderInSeg clips seg).map (fun layer =>
      (seg, layer,
       clips.filter (fun c => c.segment == seg && c.layer == layer))))).flatten

/-- A Python set modelled as a deduplicated list in first-occurrence order
(set iteration order is unspecified; no settled claim depends on it). -/
def dedupFirst [BEq α] (l : List α) : List α :=
  l.foldl (fun acc x => if acc.contains x then acc else acc ++ [x]) []

/-- The fresh-layer-name synthesis of lines 231–236: `base`, `base_1`,
`base_2`, …. -/
def freshLayerName (base : String) (taken : List String) : String :=
  freshNameFrom
    (fun k => if k = 0 then base else base ++ "_" ++ toString k) taken

/-- The conflict-rename synthesis of lines 253–255: `base_merged`,
`base_merged_1`, `base_merged_2`, …. -/
def freshMergedName (base : String) (taken : List String) : String :=
  freshNameFrom
    (fun k => if k = 0 then base ++ "_merged"
              else base ++ "_merged_" ++ toString k) taken

/-- `self.animation_file.clips.remove(next(...))` of lines 250–251. -/
def removeFirstClip (p : AnimationClip → Bool) :
    List AnimationClip → List AnimationClip
  | [] => []
  | c :: rest => if p c then rest else c :: removeFirstClip p rest

structure InsState where
  clips : List AnimationClip
  names : List String
  counter : ℤ
  inserted : List AnimationClip

/-- The per-clip insertion loop of lines 241–263 for one `(segment,
layer)` group. -/
def insertClips (seg_name target_layer_name conflict_strategy : String) :
    List AnimationClip → InsState → InsState
  | [], st => st
  | clip :: rest, st =>
    let is_conflict := st.names.contains clip.name
    if is_conflict && conflict_strategy == "skip" then
      insertClips seg_name target_layer_name conflict_strategy rest st
    else
      let new_clip := { clip with segment := seg_name,
                                  layer := target_layer_name }
      let clips1 :=
        if is_conflict && conflict_strategy == "replace" then
          removeFirstClip
            (fun c => c.segment == seg_name &&
              c.layer == target_layer_name && c.name == clip.name) st.clips
        else st.clips
      let new_clip :=
        if is_conflict && conflict_strategy == "rename" then
          { new_clip with name := freshMergedName clip.name st.names }
        else new_clip
      let counter := st.counter + 1
      let new_clip := { new_clip with order_index := counter }
      insertClips seg_name target_layer_name conflict_strategy rest
        { clips := clips1 ++ [new_clip],
          names := new_clip.name :: st.names,
          counter, inserted := st.inserted ++ [new_clip] }

/-- The per-group loop of lines 217–263: resolve the target layer by
signature match (else synthesize a fresh name), then insert the group's
clips. Returns `(clips, counter, inserted)`. -/
def processGroups (source_clips : List AnimationClip) (strategy : String) :
    List (String × String × List AnimationClip) →
    List AnimationClip → ℤ → List AnimationClip →
    List AnimationClip × ℤ × List AnimationClip
  | [], clips, counter, inserted => (clips, counter, inserted)
  | (seg_name, layer_name, grp) :: rest, clips, counter, inserted =>
    let src_sig := layerSignature "(Standalone)" seg_name layer_name
      source_clips
    let layers_in_target_segment :=
      dedupFirst ((clips.filter (fun c => c.segment == seg_name)).map (·.layer))
    let target_layer_name :=
      match layers_in_target_segment.find? (fun L =>
          sigEqB src_sig (layerSignature "(Standalone)" seg_name L clips)) with
      | some L => L
      | none => freshLayerName layer_name layers_in_target_segment
    let existing_names := (clips.filter (fun c =>
      c.segment == seg_name && c.layer == target_layer_name)).map (·.name)
    let st := insertClips seg_name target_layer_name strategy grp
      ⟨clips, existing_names, counter, inserted⟩
    processGroups source_clips strategy rest st.clips st.counter st.inserted

/-- `AppLogic.merge_animation_file` (app_logic.py lines 182–266).
`source_read` is the outcome of reading + json-parsing the source path.
The state is threaded explicitly: every guard precedes every mutation, as
in the source, so an error returns the clip collection unchanged. On
success the inserted clips are returned in insertion order. -/
def merge_animation_file (st : Option AnimationFile)
    (source_read : Except String Json) (conflict_strategy : String) :
    Option AnimationFile × Except MergeFail (List AnimationClip) :=
  match st with
  | none =>
    (st, .error (.mergeError "Cannot merge into a scene file or an empty project."))
  | some af =>
    if af.is_scene then
      (st, .error (.mergeError "Cannot merge into a scene file or an empty project."))
    else
      match source_read with
      | .error e =>
        (st, .error (.mergeError ("Failed to read source file: " ++ e)))
      | .ok (.obj source_data) =>
        if hasKey source_data "atoms" then
          (st, .error (.mergeError
            "Cannot merge a scene file. Only animation export files are supported."))
        else
          match parseStandalone source_data with
          | .error e => (st, .error (.pyError e))
          | .ok source_anim =>
            if af.atom_type ≠ source_anim.atom_type then
              (st, .error (.mergeError
                (mismatchedAtomTypesMsg af.atom_type source_anim.atom_type)))
            else
              let max_order :=
                af.clips.foldl (fun m c => max m c.order_index) (-1)
              let groups := groupBySegLayer source_anim.clips
              let res := processGroups source_anim.clips conflict_strategy
                groups af.clips max_order []
              (some { af with clips := res.1 }, .ok res.2.2)
      | .ok _ => (st, .error (.pyError "source document is not an object"))

/-! ### C4: atom-type guard, checked before any mutation -/

/-- **C4** (cross-file atom-type guard with atomicity): for every loaded
standalone file and every (non-scene, parseable) source document, if the
atom types differ the merge fails with the `MergeError` naming both types,
and the current document — in particular its clip collection — is returned
completely unchanged: the guard precedes every mutation. -/
theorem C4_atom_type_guard (af : AnimationFile)
    (source_data : List (String × Json)) (strategy : String)
    (source_anim : AnimationFile)
    (h1 : af.is_scene = false)
    (h2 : hasKey source_data "atoms" = false)
    (h3 : parseStandalone source_data = .ok source_anim)
    (h4 : af.atom_type ≠ source_anim.atom_type) :
    merge_animation_file (some af) (.ok (.obj source_data)) strategy =
      (some af, .error (.mergeError
        (mismatchedAtomTypesMsg af.atom_type source_anim.atom_type))) := by
  simp [merge_animation_file, h1, h2, h3, h4]

/-- Witness for C4: current `AtomType = "Person"`, source
`AtomType = "Cube"`. -/
theorem C4_atom_type_guard_witness :
    merge_animation_file
      (some { version := some "4", atom_type := some "Person", clips := [],
              is_scene := false })
      (.ok (.obj [("AtomType", .str "Cube"), ("Clips", .arr [])])) "rename" =
      (some { version := some "4", atom_type := some "Person", clips := [],
              is_scene := false },
       .error (.mergeError
         (mismatchedAtomTypesMsg (some "Person") (some "Cube")))) := by
  exact C4_atom_type_guard _ _ _
    { version := none, atom_type := some "Cube", clips := [],
      is_scene := false }
    rfl rfl (by with_unfolding_all rfl) (by simp)

/-! ### C6: orderIndex assignment in the cross-file merge -/

theorem foldl_max_init_le (l : List AnimationClip) (a : ℤ) :
    a ≤ l.foldl (fun m c => max m c.order_index) a := by
  induction l generalizing a with
  | nil => exact le_refl a
  | cons c rest ih => exact le_trans (le_max_left _ _) (ih _)

theorem foldl_max_le (l : List AnimationClip) (a : ℤ) (p : AnimationClip)
    (hp : p ∈ l) :
    p.order_index ≤ l.foldl (fun m c => max m c.order_index) a := by
  induction l generalizing a with
  | nil => cases hp
  | cons c rest ih =>
    rcases List.mem_cons.mp hp with hp | hp
    · subst hp
      exact le_trans (le_max_right a _) (foldl_max_init_le rest _)
    · exact ih _ hp

/-- The counter/insertion invariant of the cross-file merge: the counter
never drops below the initial maximum `m0`, every inserted clip's
`order_index` lies in `(m0, counter]`, and the inserted clips are strictly
increasing in insertion order. -/
def OrderInv (m0 counter : ℤ) (inserted : List AnimationClip) : Prop :=
  m0 ≤ counter ∧
  (∀ c ∈ inserted, m0 < c.order_index ∧ c.order_index ≤ counter) ∧
  inserted.Chain' (fun a b => a.order_index < b.order_index)

theorem insertClips_orderInv (seg tgt strat : String)
    (grp : List AnimationClip) (st : InsState) (m0 : ℤ)
    (h : OrderInv m0 st.counter st.inserted) :
    OrderInv m0 (insertClips seg tgt strat grp st).counter
      (insertClips seg tgt strat grp st).inserted := by
  induction grp generalizing st with
  | nil => exact h
  | cons clip rest ih =>
    rw [insertClips]
    split
    · exact ih st h
    · apply ih
      obtain ⟨h1, h2, h3⟩ := h
      refine ⟨by dsimp only; omega, ?_, ?_⟩
      · intro c hc
        rw [List.mem_append] at hc
        rcases hc with hc | hc
        · have := h2 c hc
          dsimp only
          omega
        · rw [List.mem_singleton] at hc
          subst hc
          dsimp only
          omega
      · dsimp only
        rw [List.chain'_append]
        refine ⟨h3, List.chain'_singleton _, ?_⟩
        intro x hx y hy
        rw [List.head?_cons, Option.mem_some_iff] at hy
        subst hy
        have hxmem : x ∈ st.inserted := by
          obtain ⟨hne, rfl⟩ := List.mem_getLast?_eq_getLast hx
          exact List.getLast_mem hne
        have := h2 x hxmem
        dsimp only
        omega

theorem processGroups_orderInv (src : List AnimationClip) (strat : String)
    (groups : List (String × String × List AnimationClip))
    (clips : List AnimationClip) (counter : ℤ)
    (inserted : List AnimationClip) (m0 : ℤ)
    (h : OrderInv m0 counter inserted) :
    OrderInv m0
      (processGroups src strat groups clips counter inserted).2.1
      (processGroups src strat groups clips counter inserted).2.2 := by
  induction groups generalizing clips counter inserted with
  | nil => exact h
  | cons g rest ih =>
    obtain ⟨seg, layer, grp⟩ := g
    rw [processGroups]
    exact ih _ _ _ (insertClips_orderInv _ _ _ _ _ _ h)

/-- Success-path characterization of `merge_animation_file`: an `.ok`
result can only arise on the main path, whose clips/inserted lists are the
`processGroups` run seeded with the current file's maximum `order_index`
(computed once) and an empty inserted list. -/
theorem merge_success_spec (af : AnimationFile)
    (source_read : Except String Json) (strategy : String)
    (af' : Option AnimationFile) (inserted : List AnimationClip)
    (h : merge_animation_file (some af) source_read strategy =
      (af', .ok inserted)) :
    ∃ source_data source_anim,
      source_read = .ok (.obj source_data) ∧
      parseStandalone source_data = .ok source_anim ∧
      af.is_scene = false ∧
      inserted = (processGroups source_anim.clips strategy
        (groupBySegLayer source_anim.clips) af.clips
        (af.clips.foldl (fun m c => max m c.order_index) (-1)) []).2.2 ∧
      af' = some { af with
        clips := (processGroups source_anim.clips strategy
          (groupBySegLayer source_anim.clips) af.clips
          (af.clips.foldl (fun m c => max m c.order_index) (-1)) []).1 } := by
  unfold merge_animation_file at h
  dsimp only at h
  by_cases hs : af.is_scene
  · simp [hs] at h
  · rw [if_neg hs] at h
    cases source_read with
    | error e => simp at h
    | ok j =>
      cases j with
      | obj source_data =>
        dsimp only at h
        by_cases ha : hasKey source_data "atoms"
        · simp [ha] at h
        · rw [if_neg (by simpa using ha)] at h
          cases hp : parseStandalone source_data with
          | error e => rw [hp] at h; simp at h
          | ok sa =>
            rw [hp] at h
            dsimp only at h
            by_cases hat : af.atom_type ≠ sa.atom_type
            · rw [if_pos hat] at h; simp at h
            · rw [if_neg hat] at h
              rw [Prod.mk.injEq] at h
              obtain ⟨h1, h2⟩ := h
              rw [Except.ok.injEq] at h2
              exact ⟨source_data, sa, rfl, hp,
                Bool.not_eq_true _ ▸ hs, h2.symm, h1.symm⟩
      | null => simp at h
      | bool b => simp at h
      | num q => simp at h
      | str s => simp at h
      | arr elems => simp at h

/-- **C6** (cross-file merge orderIndex assignment): whenever a cross-file
merge succeeds, every inserted clip receives an `order_index` strictly
greater than every pre-existing clip's, and the inserted clips' indexes
are strictly increasing in insertion order across all groups (one counter,
seeded once from the current file's maximum and incremented once per
insertion). -/
theorem C6_orderIndex_assignment (af : AnimationFile)
    (source_read : Except String Json) (strategy : String)
    (af' : Option AnimationFile) (inserted : List AnimationClip)
    (h : merge_animation_file (some af) source_read strategy =
      (af', .ok inserted)) :
    (∀ c ∈ inserted, ∀ p ∈ af.clips, p.order_index < c.order_index) ∧
    inserted.Chain' (fun a b => a.order_index < b.order_index) := by
  obtain ⟨sd, sa, -, -, -, hins, -⟩ :=
    merge_success_spec af source_read strategy af' inserted h
  set m0 := af.clips.foldl (fun m c => max m c.order_index) (-1) with hm0
  have h0 : OrderInv m0 m0 [] :=
    ⟨le_refl _, by simp, List.chain'_nil⟩
  have hinv := processGroups_orderInv sa.clips strategy
    (groupBySegLayer sa.clips) af.clips m0 [] m0 h0
  constructor
  · intro c hc p hp
    have h2 := hinv.2.1 c (by rw [← hins] at *; exact hc)
    have hple := foldl_max_le af.clips (-1) p hp
    omega
  · rw [hins]
    exact hinv.2.2

/-- The current file of the C6/C7 witnesses: one clip with
`order_index = 5`. -/
def c6CurrentFile : AnimationFile where
  version := some "4"
  atom_type := some "Person"
  is_scene := false
  clips := [{ name := "BaseWalk", segment := "Locomotion", layer := "Base",
              length := 2, order_index := 5,
              atom_id := some "(Standalone)", storable_id := none,
              other_properties := [], float_params := [], controllers := [],
              trigger_groups := [] }]

/-- The source document of the C6/C7 witnesses: two clips in two
different `(segment, layer)` groups, one name colliding with the current
file. -/
def c6SourceDoc : Json :=
  .obj [("SerializeVersion", .str "4"), ("AtomType", .str "Person"),
        ("Clips", .arr
          [.obj [("AnimationName", .str "BaseWalk"),
                 ("AnimationSegment", .str "Locomotion"),
                 ("AnimationLayer", .str "Base"),
                 ("AnimationLength", .str "1.5")],
           .obj [("AnimationName", .str "MergedIdle"),
                 ("AnimationSegment", .str "Idle"),
                 ("AnimationLayer", .str "IdleLayer"),
                 ("AnimationLength", .str "3.0")]])]

/-- The clips a concrete witness merge inserts (verified below). -/
def c6Inserted : List AnimationClip :=
  [{ name := "BaseWalk_merged", segment := "Locomotion", layer := "Base",
     length := 3/2, order_index := 6, atom_id := some "(Standalone)",
     storable_id := none, other_properties := [], float_params := [],
     controllers := [], trigger_groups := [] },
   { name := "MergedIdle", segment := "Idle", layer := "IdleLayer",
     length := 3, order_index := 7, atom_id := some "(Standalone)",
     storable_id := none, other_properties := [], float_params := [],
     controllers := [], trigger_groups := [] }]

/-- Witness for C6 on a concrete merge run. -/
theorem C6_orderIndex_assignment_witness :
    ∃ af' : Option AnimationFile,
      merge_animation_file (some c6CurrentFile) (.ok c6SourceDoc) "rename" =
        (af', .ok c6Inserted) ∧
      ((∀ c ∈ c6Inserted, ∀ p ∈ c6CurrentFile.clips,
          p.order_index < c.order_index) ∧
       c6Inserted.Chain' (fun a b => a.order_index < b.order_index)) :=
  ⟨(merge_animation_file (some c6CurrentFile) (.ok c6SourceDoc) "rename").1,
   by with_unfolding_all rfl,
   C6_orderIndex_assignment c6CurrentFile (.ok c6SourceDoc) "rename"
     (merge_animation_file (some c6CurrentFile) (.ok c6SourceDoc) "rename").1
     c6Inserted (by with_unfolding_all rfl)⟩

/-! ### C7: the layer-local name-uniqueness invariant is preserved -/

/-- The identity key of a clip within the collection. -/
def clipKey (c : AnimationClip) : Option String × String × String × String :=
  (c.atom_id, c.segment, c.layer, c.name)

/-- No two clips share `(atomId, segment, layer, name)`. -/
def UniqKeys (clips : List AnimationClip) : Prop :=
  clips.Pairwise (fun a b => clipKey a ≠ clipKey b)

theorem length_le_foldl_append (taken : List String) (s : String) :
    s.length ≤ (taken.foldl (· ++ ·) s).length := by
  induction taken generalizing s with
  | nil => exact le_refl _
  | cons t rest ih =>
    exact le_trans (by rw [String.length_append]; omega) (ih (s ++ t))

theorem mem_length_le_foldl_append (taken : List String) (s t : String)
    (ht : t ∈ taken) :
    t.length ≤ (taken.foldl (· ++ ·) s).length := by
  induction taken generalizing s with
  | nil => cases ht
  | cons a rest ih =>
    rcases List.mem_cons.mp ht with rfl | hmem
    · exact le_trans (by rw [String.length_append]; omega)
        (length_le_foldl_append rest (s ++ t))
    · exact ih (s ++ a) hmem

theorem freshNameFrom_not_mem (cand : ℕ → String) (taken : List String)
    (hc : 0 < (cand 0).length) :
    freshNameFrom cand taken ∉ taken := by
  unfold freshNameFrom
  cases hf : (List.range (taken.length + 1)).find?
      (fun k => !taken.contains (cand k)) with
  | some k =>
    have h1 := List.find?_some hf
    simp only [Bool.not_eq_true'] at h1
    simpa using h1
  | none =>
    intro hmem
    have hlen := mem_length_le_foldl_append taken "" _ hmem
    rw [String.length_append] at hlen
    omega

theorem freshMergedName_not_mem (base : String) (taken : List String) :
    freshMergedName base taken ∉ taken := by
  apply freshNameFrom_not_mem
  show 0 < (if (0 : ℕ) = 0 then base ++ "_merged"
            else base ++ "_merged_" ++ toString 0).length
  rw [if_pos rfl, String.length_append]
  have : ("_merged" : String).length = 7 := rfl
  omega

theorem removeFirstClip_sublist (p : AnimationClip → Bool)
    (l : List AnimationClip) : List.Sublist (removeFirstClip p l) l := by
  induction l with
  | nil => exact List.Sublist.refl _
  | cons c rest ih =>
    rw [removeFirstClip]
    split
    · exact List.sublist_cons_self c rest
    · exact ih.cons₂ c

theorem removeFirstClip_no_match (p : AnimationClip → Bool)
    (l : List AnimationClip)
    (h : l.Pairwise (fun a b => ¬(p a = true ∧ p b = true))) :
    ∀ c ∈ removeFirstClip p l, ¬p c = true := by
  induction l with
  | nil => intro c hc; cases hc
  | cons a rest ih =>
    rw [List.pairwise_cons] at h
    rw [removeFirstClip]
    split
    · rename_i hpa
      intro c hc hpc
      exact h.1 c hc ⟨hpa, hpc⟩
    · rename_i hpa
      intro c hc
      rcases List.mem_cons.mp hc with rfl | hc
      · exact hpa
      · exact ih h.2 c hc

/-- The inner-loop invariant of the cross-file clip insertion: unique
keys, the single synthetic atom id of standalone files, and the tracked
name set covering every clip of the target `(segment, layer)`. -/
def InsInv (seg tgt : String) (clips : List AnimationClip)
    (names : List String) : Prop :=
  UniqKeys clips ∧
  (∀ c ∈ clips, c.atom_id = some "(Standalone)") ∧
  (∀ c ∈ clips, c.segment = seg → c.layer = tgt → c.name ∈ names)

theorem insInv_append (seg tgt : String) (clips : List AnimationClip)
    (names : List String) (new_clip : AnimationClip)
    (h : InsInv seg tgt clips names)
    (hatom : new_clip.atom_id = some "(Standalone)")
    (hseg : new_clip.segment = seg) (hlay : new_clip.layer = tgt)
    (hkey : ∀ c ∈ clips,
      ¬(c.segment = seg ∧ c.layer = tgt ∧ c.name = new_clip.name)) :
    InsInv seg tgt (clips ++ [new_clip]) (new_clip.name :: names) := by
  obtain ⟨hU, hA, hN⟩ := h
  refine ⟨?_, ?_, ?_⟩
  · rw [UniqKeys, List.pairwise_append]
    refine ⟨hU, List.pairwise_singleton _ _, ?_⟩
    intro a ha b hb
    rw [List.mem_singleton] at hb
    subst hb
    intro hk
    apply hkey a ha
    rw [clipKey, clipKey, Prod.mk.injEq, Prod.mk.injEq, Prod.mk.injEq] at hk
    exact ⟨hk.2.1.trans hseg, hk.2.2.1.trans hlay, hk.2.2.2⟩
  · intro c hc
    rcases List.mem_append.mp hc with hc | hc
    · exact hA c hc
    · rw [List.mem_singleton] at hc
      subst hc
      exact hatom
  · intro c hc hcs hcl
    rcases List.mem_append.mp hc with hc | hc
    · exact List.mem_cons_of_mem _ (hN c hc hcs hcl)
    · rw [List.mem_singleton] at hc
      subst hc
      exact List.mem_cons_self _ _

theorem insInv_sublist (seg tgt : String)
    {clips clips' : List AnimationClip} (names : List String)
    (hsub : List.Sublist clips' clips) (h : InsInv seg tgt clips names) :
    InsInv seg tgt clips' names :=
  ⟨h.1.sublist hsub,
   fun c hc => h.2.1 c (hsub.subset hc),
   fun c hc => h.2.2 c (hsub.subset hc)⟩

/-- After `replace` removes the first clip of the target `(segment,
layer)` bearing the colliding name, no clip with that `(segment, layer,
name)` remains (uniqueness plus the constant atom id make the match
unique). -/
theorem removeFirst_key_clear (seg tgt nm : String)
    (clips : List AnimationClip) (hU : UniqKeys clips)
    (hA : ∀ c ∈ clips, c.atom_id = some "(Standalone)") :
    ∀ c ∈ removeFirstClip
        (fun c => c.segment == seg && c.layer == tgt && c.name == nm) clips,
      ¬(c.segment = seg ∧ c.layer = tgt ∧ c.name = nm) := by
  have hPW : clips.Pairwise (fun a b =>
      ¬((a.segment == seg && a.layer == tgt && a.name == nm) = true ∧
        (b.segment == seg && b.layer == tgt && b.name == nm) = true)) := by
    apply hU.imp_of_mem
    intro a b ha hb hne hcontra
    obtain ⟨hpa, hpb⟩ := hcontra
    simp only [Bool.and_eq_true, beq_iff_eq] at hpa hpb
    apply hne
    rw [clipKey, clipKey, hA a ha, hA b hb]
    rw [hpa.1.1, hpa.1.2, hpa.2, hpb.1.1, hpb.1.2, hpb.2]
  intro c hc hcontra
  have := removeFirstClip_no_match _ _ hPW c hc
  apply this
  simp only [Bool.and_eq_true, beq_iff_eq]
  exact ⟨⟨hcontra.1, hcontra.2.1⟩, hcontra.2.2⟩

theorem insertClips_insInv (seg tgt strat : String)
    (hstrat : strat = "skip" ∨ strat = "replace" ∨ strat = "rename") :
    ∀ (grp : List AnimationClip) (st : InsState),
      (∀ c ∈ grp, c.atom_id = some "(Standalone)") →
      InsInv seg tgt st.clips st.names →
      InsInv seg tgt (insertClips seg tgt strat grp st).clips
        (insertClips seg tgt strat grp st).names
  | [], _, _, h => h
  | clip :: rest, st, hgrp, h => by
    have hclip : clip.atom_id = some "(Standalone)" :=
      hgrp clip (List.mem_cons_self _ _)
    have hrest : ∀ c ∈ rest, c.atom_id = some "(Standalone)" :=
      fun c hc => hgrp c (List.mem_cons_of_mem _ hc)
    rw [insertClips]
    split
    · exact insertClips_insInv seg tgt strat hstrat rest st hrest h
    · rename_i hskip
      apply insertClips_insInv seg tgt strat hstrat rest _ hrest
      by_cases hconf : (st.names.contains clip.name) = true
      · -- a name conflict: the strategy is replace or rename
        have hnotskip : ¬strat = "skip" := by
          intro hs
          apply hskip
          rw [hs, hconf]
          rfl
        rcases hstrat with hs | hs | hs
        · exact absurd hs hnotskip
        · -- replace
          subst hs
          have hren : ¬((st.names.contains clip.name &&
              ("replace" == "rename")) = true) := by simp
          have hrep : (st.names.contains clip.name &&
              ("replace" == "replace")) = true := by rw [hconf]; rfl
          rw [if_pos hrep, if_neg hren]
          have h1 := insInv_sublist seg tgt st.names
            (removeFirstClip_sublist (fun c => c.segment == seg &&
              c.layer == tgt && c.name == clip.name) st.clips) h
          apply insInv_append seg tgt _ _ _ h1
          · exact hclip
          · rfl
          · rfl
          · intro c hc hcontra
            exact removeFirst_key_clear seg tgt clip.name st.clips h.1 h.2.1
              c hc ⟨hcontra.1, hcontra.2.1, hcontra.2.2⟩
        · -- rename
          subst hs
          have hrep : ¬((st.names.contains clip.name &&
              ("rename" == "replace")) = true) := by simp
          have hren : (st.names.contains clip.name &&
              ("rename" == "rename")) = true := by rw [hconf]; rfl
          rw [if_neg hrep, if_pos hren]
          apply insInv_append seg tgt _ _ _ h
          · exact hclip
          · rfl
          · rfl
          · intro c hc hcontra
            have hmemn := h.2.2 c hc hcontra.1 hcontra.2.1
            have hname : c.name = freshMergedName clip.name st.names :=
              hcontra.2.2
            rw [hname] at hmemn
            exact freshMergedName_not_mem clip.name st.names hmemn
      · -- no conflict: plain insertion under the original name
        have hcf : st.names.contains clip.name = false := by
          cases hb : st.names.contains clip.name
          · rfl
          · exact absurd hb hconf
        have hrep : ¬((st.names.contains clip.name && (strat == "replace")) =
            true) := by rw [hcf]; simp
        have hren : ¬((st.names.contains clip.name && (strat == "rename")) =
            true) := by rw [hcf]; simp
        rw [if_neg hrep, if_neg hren]
        apply insInv_append seg tgt _ _ _ h
        · exact hclip
        · rfl
        · rfl
        · intro c hc hcontra
          have hmemn := h.2.2 c hc hcontra.1 hcontra.2.1
          have hname : c.name = clip.name := hcontra.2.2
          rw [hname] at hmemn
          exact hconf (by simpa using hmemn)

theorem processGroups_uniq (src : List AnimationClip) (strat : String)
    (hstrat : strat = "skip" ∨ strat = "replace" ∨ strat = "rename") :
    ∀ (groups : List (String × String × List AnimationClip))
      (clips : List AnimationClip) (counter : ℤ)
      (inserted : List AnimationClip),
      (∀ g ∈ groups, ∀ c ∈ g.2.2, c.atom_id = some "(Standalone)") →
      UniqKeys clips →
      (∀ c ∈ clips, c.atom_id = some "(Standalone)") →
      UniqKeys (processGroups src strat groups clips counter inserted).1 ∧
      (∀ c ∈ (processGroups src strat groups clips counter inserted).1,
        c.atom_id = some "(Standalone)")
  | [], clips, counter, inserted, _, hU, hA => ⟨hU, hA⟩
  | (seg_name, layer_name, grp) :: rest, clips, counter, inserted,
    hgroups, hU, hA => by
    have hgrp : ∀ c ∈ grp, c.atom_id = some "(Standalone)" :=
      hgroups _ (List.mem_cons_self _ _)
    have hrest : ∀ g ∈ rest, ∀ c ∈ g.2.2, c.atom_id = some "(Standalone)" :=
      fun g hg => hgroups g (List.mem_cons_of_mem _ hg)
    have hnames : ∀ (T : String), ∀ c ∈ clips, c.segment = seg_name →
        c.layer = T →
        c.name ∈ (clips.filter (fun c =>
          c.segment == seg_name && c.layer == T)).map (·.name) := by
      intro T c hc hcs hcl
      refine List.mem_map.mpr ⟨c, ?_, rfl⟩
      rw [List.mem_filter]
      exact ⟨hc, by simp [hcs, hcl]⟩
    rw [processGroups]
    refine processGroups_uniq src strat hstrat rest _ _ _ hrest ?_ ?_
    · exact (insertClips_insInv seg_name _ strat hstrat grp
        ⟨clips, _, counter, inserted⟩ hgrp ⟨hU, hA, hnames _⟩).1
    · exact (insertClips_insInv seg_name _ strat hstrat grp
        ⟨clips, _, counter, inserted⟩ hgrp ⟨hU, hA, hnames _⟩).2.1

theorem exceptBind_ok {α β : Type} (x : Except String α)
    (f : α → Except String β) (b : β)
    (h : x >>= f = .ok b) : ∃ a, x = .ok a ∧ f a = .ok b := by
  cases x with
  | error e => exact absurd h (by simp [Bind.bind, Except.bind])
  | ok a =>
    refine ⟨a, rfl, ?_⟩
    simpa [Bind.bind, Except.bind] using h

/-- A parsed clip carries exactly the atom id passed down by the caller. -/
theorem from_dict_atom_id (data : List (String × Json))
    (aid sid : Option String) (i : ℤ) (c : AnimationClip)
    (h : AnimationClip.from_dict data aid sid i = .ok c) :
    c.atom_id = aid := by
  unfold AnimationClip.from_dict at h
  obtain ⟨nm, -, h⟩ := exceptBind_ok _ _ _ h
  obtain ⟨sg, -, h⟩ := exceptBind_ok _ _ _ h
  obtain ⟨ly, -, h⟩ := exceptBind_ok _ _ _ h
  dsimp only at h
  split at h <;>
    obtain ⟨ln, hln, h⟩ := exceptBind_ok _ _ _ h <;>
    (try cases hln) <;>
    split at h <;>
    obtain ⟨fp, hfp, h⟩ := exceptBind_ok _ _ _ h <;>
    (try cases hfp) <;>
    split at h <;>
    obtain ⟨cs, hcs, h⟩ := exceptBind_ok _ _ _ h <;>
    (try cases hcs) <;>
    split at h <;>
    obtain ⟨tg, htg, h⟩ := exceptBind_ok _ _ _ h <;>
    (try cases htg) <;>
    (simp only [pure, Except.pure, Except.ok.injEq] at h; subst h; rfl)

theorem parseClipsList_atom (aid sid : Option String) :
    ∀ (elems : List Json) (i : ℤ) (cs : List AnimationClip),
      parseClipsList aid sid elems i = .ok cs →
      ∀ c ∈ cs, c.atom_id = aid := by
  intro elems
  induction elems with
  | nil =>
    intro i cs h c hc
    rw [parseClipsList] at h
    cases h
    cases hc
  | cons e rest ih =>
    intro i cs h c hc
    cases e with
    | obj fields =>
      rw [parseClipsList] at h
      obtain ⟨c0, hc0, h⟩ := exceptBind_ok _ _ _ h
      obtain ⟨cs', hcs', h⟩ := exceptBind_ok _ _ _ h
      simp only [pure, Except.pure, Except.ok.injEq] at h
      subst h
      rcases List.mem_cons.mp hc with rfl | hc2
      · exact from_dict_atom_id _ _ _ _ _ hc0
      · exact ih (i + 1) cs' hcs' c hc2
    | null => simp [parseClipsList] at h
    | bool b => simp [parseClipsList] at h
    | num q => simp [parseClipsList] at h
    | str s => simp [parseClipsList] at h
    | arr a => simp [parseClipsList] at h

/-- Every clip of a parsed standalone file carries the synthetic atom id
`"(Standalone)"`. -/
theorem parseStandalone_atoms (data : List (String × Json))
    (sa : AnimationFile) (h : parseStandalone data = .ok sa) :
    ∀ c ∈ sa.clips, c.atom_id = some "(Standalone)" := by
  unfold parseStandalone at h
  obtain ⟨v, -, h⟩ := exceptBind_ok _ _ _ h
  obtain ⟨t, -, h⟩ := exceptBind_ok _ _ _ h
  dsimp only at h
  split at h <;>
    obtain ⟨cl, hcl, h⟩ := exceptBind_ok _ _ _ h <;>
    (try cases hcl) <;>
    (simp only [pure, Except.pure, Except.ok.injEq] at h; subst h;
     intro c hc; dsimp only at hc) <;>
    first
      | exact parseClipsList_atom _ _ _ 0 _ hcl c hc
      | cases hc

theorem groupBySegLayer_mem (clips : List AnimationClip)
    (g : String × String × List AnimationClip)
    (hg : g ∈ groupBySegLayer clips) :
    ∀ c ∈ g.2.2, c ∈ clips := by
  unfold groupBySegLayer at hg
  rw [List.mem_flatten] at hg
  obtain ⟨inner, hinner, hgin⟩ := hg
  rw [List.mem_map] at hinner
  obtain ⟨seg, -, hseq⟩ := hinner
  subst hseq
  rw [List.mem_map] at hgin
  obtain ⟨layer, -, hgeq⟩ := hgin
  subst hgeq
  intro c hc
  exact (List.mem_filter.mp hc).1

/-- **C7** (name-uniqueness preservation by cross-file merge): if the
current standalone file's clips satisfy the layer-local uniqueness
invariant (no two clips share `(atomId, segment, layer, name)`), the
source document parses with unique keys as well, and the conflict
strategy is one of `skip`/`replace`/`rename`, then after a successful
cross-file import merge the resulting clip collection still satisfies
the invariant: `skip` drops colliding clips, `replace` removes the
existing same-named clip before inserting, and `rename` picks a fresh
`"{name}_merged"`/`"{name}_merged_N"` name. -/
theorem C7_name_uniqueness_preserved (af : AnimationFile)
    (source_data : List (String × Json)) (strategy : String)
    (source_anim af2 : AnimationFile) (inserted : List AnimationClip)
    (hparse : parseStandalone source_data = .ok source_anim)
    (hsrc_uniq : UniqKeys source_anim.clips)
    (huniq : UniqKeys af.clips)
    (hatoms : ∀ c ∈ af.clips, c.atom_id = some "(Standalone)")
    (hstrat : strategy = "skip" ∨ strategy = "replace" ∨
      strategy = "rename")
    (h : merge_animation_file (some af) (.ok (.obj source_data)) strategy =
      (some af2, .ok inserted)) :
    UniqKeys af2.clips := by
  obtain ⟨sd, sa, hsr, hp, -, -, haf⟩ :=
    merge_success_spec af (.ok (.obj source_data)) strategy (some af2)
      inserted h
  rw [Except.ok.injEq, Json.obj.injEq] at hsr
  subst hsr
  rw [hparse, Except.ok.injEq] at hp
  subst hp
  rw [Option.some.injEq] at haf
  subst haf
  exact (processGroups_uniq source_anim.clips strategy hstrat
    (groupBySegLayer source_anim.clips) af.clips
    (af.clips.foldl (fun m c => max m c.order_index) (-1)) []
    (fun g hg c hc => parseStandalone_atoms source_data source_anim hparse c
      (groupBySegLayer_mem source_anim.clips g hg c hc))
    huniq hatoms).1

/-- The current file of the C7 witness: one standalone clip
`Walk` in `(Seg, Base)`. -/
def c7ClipA : AnimationClip :=
  { name := "Walk", segment := "Seg", layer := "Base", length := 1,
    order_index := 0, atom_id := some "(Standalone)", storable_id := none,
    other_properties := [], float_params := [], controllers := [],
    trigger_groups := [] }

def c7CurrentFile : AnimationFile :=
  { version := some "4", atom_type := some "Person", clips := [c7ClipA],
    is_scene := false }

/-- The source document of the C7 witness: one clip colliding on the
name `Walk` in the same `(Seg, Base)`. -/
def c7SourceData : List (String × Json) :=
  [("AtomType", .str "Person"),
   ("Clips", .arr [.obj [("AnimationName", .str "Walk"),
                         ("AnimationSegment", .str "Seg"),
                         ("AnimationLayer", .str "Base")]])]

def c7SourceAnim : AnimationFile :=
  { version := none, atom_type := some "Person",
    clips := [{ name := "Walk", segment := "Seg", layer := "Base",
                length := 0, order_index := 0,
                atom_id := some "(Standalone)", storable_id := none,
                other_properties := [], float_params := [],
                controllers := [], trigger_groups := [] }],
    is_scene := false }

/-- The merged file of the C7 witness: the colliding source clip is
inserted under the fresh name `Walk_merged` with the next order index. -/
def c7Merged : AnimationFile :=
  { version := some "4", atom_type := some "Person",
    clips := [c7ClipA,
              { name := "Walk_merged", segment := "Seg", layer := "Base",
                length := 0, order_index := 1,
                atom_id := some "(Standalone)", storable_id := none,
                other_properties := [], float_params := [],
                controllers := [], trigger_groups := [] }],
    is_scene := false }

def c7Inserted : List AnimationClip :=
  [{ name := "Walk_merged", segment := "Seg", layer := "Base",
     length := 0, order_index := 1, atom_id := some "(Standalone)",
     storable_id := none, other_properties := [], float_params := [],
     controllers := [], trigger_groups := [] }]

/-- Witness for C7: a rename-strategy merge of a colliding clip keeps the
key set duplicate-free. -/
theorem C7_name_uniqueness_preserved_witness : UniqKeys c7Merged.clips :=
  C7_name_uniqueness_preserved c7CurrentFile c7SourceData "rename"
    c7SourceAnim c7Merged c7Inserted
    (by with_unfolding_all rfl)
    (by simp [UniqKeys, c7SourceAnim])
    (by simp [UniqKeys, c7CurrentFile])
    (by intro c hc
        rw [c7CurrentFile] at hc
        dsimp only at hc
        rw [List.mem_singleton] at hc
        subst hc
        rfl)
    (Or.inr (Or.inr rfl))
    (by with_unfolding_all rfl)

/-! ### C8: clip rename semantics (app_logic.py lines 499–520) -/

inductive RenameResult where
  | noop : RenameResult
  | nameConflict : RenameResult
  | renamed : RenameResult
deriving Repr

/-- The conflict test of line 507: any *other* clip (object identity is
modelled by position) with the target name in the same
`(layer, segment, atomId)`. -/
def clipConflictB (clips : List AnimationClip) (i : ℕ)
    (clip : AnimationClip) (new_name : String) : Bool :=
  (List.range clips.length).any (fun j =>
    (j != i) && match clips[j]? with
      | some c => c.name == new_name && c.layer == clip.layer &&
          c.segment == clip.segment && c.atom_id == clip.atom_id
      | none => false)

/-- `AppLogic.rename_item` (app_logic.py lines 499–520), clip branch.
The clip is given by its position `i`. The guard of line 500 silently
does nothing on an empty name; after a same-name early return and the
conflict check, line 513 sets the name and the loop of lines 515–518
runs over *all* clips of the file — the renamed clip included — and
rewrites `otherProperties["NextAnimationName"]` entries equal to the
old name within the renamed clip's `(atomId, segment, layer)`. -/
def rename_clip (clips : List AnimationClip) (i : ℕ) (new_name : String) :
    List AnimationClip × RenameResult :=
  if new_name = "" then (clips, .noop)
  else
    match clips[i]? with
    | none => (clips, .noop)
    | some clip =>
      if new_name = clip.name then (clips, .noop)
      else if clipConflictB clips i clip new_name then
        (clips, .nameConflict)
      else
        ((clips.set i { clip with name := new_name }).map (fun c =>
          if jsonEqStr (jsonLookup c.other_properties "NextAnimationName")
              clip.name && c.atom_id == clip.atom_id &&
              c.segment == clip.segment && c.layer == clip.layer then
            { c with other_properties := (dictSet c.other_properties
                "NextAnimationName" (.str new_name)) }
          else c), .renamed)

/-- First clip of the C8 counterexample: loops back to itself via
`NextAnimationName`. -/
def c8ClipA : AnimationClip :=
  { name := "A", segment := "S", layer := "L", length := 1,
    order_index := 0, atom_id := some "(Standalone)", storable_id := none,
    other_properties := [("NextAnimationName", .str "A")],
    float_params := [], controllers := [], trigger_groups := [] }

/-- Second clip of the C8 counterexample: references `A` via
`NextAnimationName` from the same `(atomId, segment, layer)`. -/
def c8ClipB : AnimationClip :=
  { name := "B", segment := "S", layer := "L", length := 1,
    order_index := 1, atom_id := some "(Standalone)", storable_id := none,
    other_properties := [("NextAnimationName", .str "A")],
    float_params := [], controllers := [], trigger_groups := [] }

/-- **C8 counterexample**: the claim says a successful rename updates the
clip's *name* and rewrites `NextAnimationName` only on *other* clips of
the same `(atomId, segment, layer)`, leaving everything else unchanged —
and that this happens for every new name. The code differs twice.
First, the rewrite loop of lines 515–518 has no `is not clip` filter, so
renaming `A` to `A2` also rewrites the renamed clip's *own*
self-referencing `NextAnimationName` (its property list changes, which
the claim's reading forbids). Second, the guard of line 500 makes an
empty-name rename a silent no-op instead of an update. -/
theorem C8_rename_counterexample :
    (rename_clip [c8ClipA, c8ClipB] 0 "A2" =
      ([{ c8ClipA with
            name := "A2",
            other_properties := [("NextAnimationName", .str "A2")] },
        { c8ClipB with
            other_properties := [("NextAnimationName", .str "A2")] }],
       .renamed) ∧
     [("NextAnimationName", Json.str "A2")] ≠ c8ClipA.other_properties) ∧
    rename_clip [c8ClipA, c8ClipB] 0 "" = ([c8ClipA, c8ClipB], .noop) := by
  refine ⟨⟨by with_unfolding_all rfl, ?_⟩, by with_unfolding_all rfl⟩
  rw [c8ClipA]
  simp

/-- **C8** (amended): with a loaded file, a clip at position `i`, and a
non-empty new name different from the clip's current one: if some other
clip of the same `(atomId, segment, layer)` already bears the new name,
the rename is rejected as a name conflict with every clip unchanged;
otherwise the clip's name is set and `otherProperties["NextAnimationName"]`
entries equal to the old name are rewritten to the new name on every clip
of the renamed clip's `(atomId, segment, layer)` — the renamed clip's own
self-reference included. -/
theorem C8_rename_semantics (clips : List AnimationClip) (i : ℕ)
    (clip : AnimationClip) (new_name : String)
    (hi : clips[i]? = some clip)
    (hne : ¬new_name = "") (hdiff : ¬new_name = clip.name) :
    ((∃ j c, clips[j]? = some c ∧ j ≠ i ∧ c.name = new_name ∧
        c.layer = clip.layer ∧ c.segment = clip.segment ∧
        c.atom_id = clip.atom_id) →
      rename_clip clips i new_name = (clips, .nameConflict)) ∧
    ((∀ j (c : AnimationClip), clips[j]? = some c → j ≠ i →
        c.name = new_name → c.layer = clip.layer →
        c.segment = clip.segment → c.atom_id ≠ clip.atom_id) →
      rename_clip clips i new_name =
        ((clips.set i { clip with name := new_name }).map (fun c =>
          if jsonEqStr (jsonLookup c.other_properties "NextAnimationName")
              clip.name && c.atom_id == clip.atom_id &&
              c.segment == clip.segment && c.layer == clip.layer then
            { c with other_properties := (dictSet c.other_properties
                "NextAnimationName" (.str new_name)) }
          else c), .renamed)) := by
  constructor
  · rintro ⟨j, c, hj, hji, hname, hlayer, hseg, hatom⟩
    have hjlt : j < clips.length := by
      by_contra hge
      rw [List.getElem?_eq_none (by omega)] at hj
      cases hj
    have hconf : clipConflictB clips i clip new_name = true := by
      rw [clipConflictB, List.any_eq_true]
      refine ⟨j, List.mem_range.mpr hjlt, ?_⟩
      rw [hj]
      simp [hji, hname, hlayer, hseg, hatom]
    unfold rename_clip
    rw [if_neg hne, hi]
    dsimp only
    rw [if_neg hdiff, if_pos hconf]
  · intro hfree
    have hconf : ¬clipConflictB clips i clip new_name = true := by
      intro hb
      rw [clipConflictB, List.any_eq_true] at hb
      obtain ⟨j, -, hbool⟩ := hb
      rw [Bool.and_eq_true] at hbool
      obtain ⟨hji, hmatch⟩ := hbool
      rw [bne_iff_ne] at hji
      cases hcj : clips[j]? with
      | none => rw [hcj] at hmatch; cases hmatch
      | some c =>
        rw [hcj] at hmatch
        simp only [Bool.and_eq_true, beq_iff_eq] at hmatch
        exact hfree j c hcj hji hmatch.1.1.1 hmatch.1.1.2 hmatch.1.2
          hmatch.2
    unfold rename_clip
    rw [if_neg hne, hi]
    dsimp only
    rw [if_neg hdiff, if_neg hconf]

/-- Witness for C8's amended theorem: renaming `A` to the conflict-free
`A2` rewrites both clips' references — the self-reference of `A` and the
reference held by `B`. -/
theorem C8_rename_semantics_witness :
    rename_clip [c8ClipA, c8ClipB] 0 "A2" =
      ([{ c8ClipA with
            name := "A2",
            other_properties := [("NextAnimationName", .str "A2")] },
        { c8ClipB with
            other_properties := [("NextAnimationName", .str "A2")] }],
       .renamed) := by
  refine ((C8_rename_semantics [c8ClipA, c8ClipB] 0 c8ClipA "A2"
    rfl (by decide) (by decide)).2 ?_).trans (by with_unfolding_all rfl)
  intro j c hj hji hname hlayer hseg
  rcases j with _ | _ | j
  · exact absurd rfl hji
  · have hc : c = c8ClipB := by simpa using hj.symm
    subst hc
    exact absurd hname (by decide)
  · simp at hj

/-! ### C9: deterministic serialization -/

theorem jsonLookup_dictSet_self (d : List (String × Json)) (k : String)
    (v : Json) : jsonLookup (dictSet d k v) k = some v := by
  induction d with
  | nil => simp [dictSet, jsonLookup]
  | cons p rest ih =>
    by_cases hp : p.1 = k
    · simp [dictSet, jsonLookup, hp]
    · simp only [dictSet, if_neg hp]
      simpa [jsonLookup, List.find?, hp] using ih

theorem jsonLookup_cons_ne {p : String × Json} {rest : List (String × Json)}
    {k : String} (h : p.1 ≠ k) :
    jsonLookup (p :: rest) k = jsonLookup rest k := by
  simp [jsonLookup, List.find?, h]

theorem jsonLookup_dictSet_ne (d : List (String × Json)) (k k' : String)
    (v : Json) (h : k' ≠ k) :
    jsonLookup (dictSet d k v) k' = jsonLookup d k' := by
  induction d with
  | nil =>
    show jsonLookup [(k, v)] k' = jsonLookup [] k'
    simp [jsonLookup, List.find?, Ne.symm h]
  | cons p rest ih =>
    rw [dictSet]
    by_cases hp : p.1 = k
    · rw [if_pos hp,
        jsonLookup_cons_ne (p := (k, v)) (fun hh => h hh.symm),
        jsonLookup_cons_ne (p := p) (fun hh => h (hp ▸ hh).symm)]
    · rw [if_neg hp]
      by_cases hp' : p.1 = k'
      · simp [jsonLookup, List.find?, hp']
      · rw [jsonLookup_cons_ne hp', jsonLookup_cons_ne hp', ih]

theorem jsonLookup_ite_dictSet_ne (cond : Prop) [Decidable cond]
    (d : List (String × Json)) (k k' : String) (v : Json) (h : k' ≠ k) :
    jsonLookup (if cond then dictSet d k v else d) k' = jsonLookup d k' := by
  split
  · exact jsonLookup_dictSet_ne _ _ _ _ h
  · rfl

theorem jsonLookup_dictUpdate_of_none (d other : List (String × Json))
    (k : String) (h : jsonLookup other k = none) :
    jsonLookup (dictUpdate d other) k = jsonLookup d k := by
  induction other generalizing d with
  | nil => rfl
  | cons p rest ih =>
    have hp : ¬p.1 = k := by
      intro hk
      simp [jsonLookup, List.find?, hk] at h
    have hrest : jsonLookup rest k = none := by
      rwa [jsonLookup_cons_ne hp] at h
    show jsonLookup (dictUpdate (dictSet d p.1 p.2) rest) k = _
    rw [ih _ hrest, jsonLookup_dictSet_ne _ _ _ _ (fun hk => hp hk.symm)]

theorem pairLe_total (a b : String × String) : pairLe a b ∨ pairLe b a := by
  rcases lt_trichotomy a.1 b.1 with h | h | h
  · exact Or.inl (Or.inl h)
  · rcases le_total a.2 b.2 with h2 | h2
    · exact Or.inl (Or.inr ⟨h, h2⟩)
    · exact Or.inr (Or.inr ⟨h.symm, h2⟩)
  · exact Or.inr (Or.inl h)

theorem pairLe_trans (a b c : String × String) (hab : pairLe a b)
    (hbc : pairLe b c) : pairLe a c := by
  rcases hab with h1 | ⟨h1, h1'⟩ <;> rcases hbc with h2 | ⟨h2, h2'⟩
  · exact Or.inl (h1.trans h2)
  · exact Or.inl (h2 ▸ h1)
  · exact Or.inl (h1 ▸ h2)
  · exact Or.inr ⟨h1.trans h2, h1'.trans h2'⟩

/-- The object fields emitted by `AnimationClip.to_dict` (its final `data`
value). -/
def clipDictFields (c : AnimationClip) : List (String × Json) :=
  let data := [("AnimationName", Json.str c.name),
               ("AnimationSegment", Json.str c.segment),
               ("AnimationLayer", Json.str c.layer),
               ("AnimationLength", Json.str (pyFloatRepr c.length))]
  let data := dictUpdate data c.other_properties
  let data := if ¬c.float_params.isEmpty then
      dictSet data "FloatParams"
        (.arr ((sortedFloatParams c).map FloatParameter.to_dict))
    else data
  let data := if ¬c.controllers.isEmpty then
      dictSet data "Controllers"
        (.arr ((sortedControllers c).map ControllerTarget.to_dict))
    else data
  let data := if ¬c.trigger_groups.isEmpty then
      dictSet data "Triggers"
        (.arr ((sortedTriggerGroups c).map TriggerGroup.to_dict))
    else data
  data

theorem to_dict_eq_clipDictFields (c : AnimationClip) :
    AnimationClip.to_dict c = .obj (clipDictFields c) := rfl

/-- **C9** (deterministic serialization): for every non-scene file,
`to_dict` emits the `Clips` array as the clips sorted ascending by
`orderIndex` (a stable sort of the collection), and for every clip the
`FloatParams` entry is its float parameters sorted by `(storable, name)`,
`Controllers` sorted by `id`, `Triggers` sorted by `name`, with
`AnimationLength` emitted as a (decimal) string. The passthrough bag is
assumed not to carry an `"AnimationLength"` key of its own (it never does
for parsed clips, whose known keys are filtered out). -/
theorem C9_deterministic_serialization (f : AnimationFile)
    (hns : f.is_scene = false)
    (hlen : ∀ c ∈ f.clips,
      jsonLookup c.other_properties "AnimationLength" = none) :
    AnimationFile.to_dict f = some (.obj
        [("SerializeVersion", optStrJson f.version),
         ("AtomType", optStrJson f.atom_type),
         ("Clips", .arr ((sortedClips f).map AnimationClip.to_dict))]) ∧
    (sortedClips f).Perm f.clips ∧
    (sortedClips f).Sorted (fun a b => a.order_index ≤ b.order_index) ∧
    ∀ c ∈ f.clips,
      (sortedFloatParams c).Perm c.float_params ∧
      (sortedFloatParams c).Sorted
        (fun p q => pairLe (p.storable, p.name) (q.storable, q.name)) ∧
      (sortedControllers c).Perm c.controllers ∧
      (sortedControllers c).Sorted (fun a b => a.id ≤ b.id) ∧
      (sortedTriggerGroups c).Perm c.trigger_groups ∧
      (sortedTriggerGroups c).Sorted (fun a b => a.name ≤ b.name) ∧
      AnimationClip.to_dict c = .obj (clipDictFields c) ∧
      jsonLookup (clipDictFields c) "AnimationLength" =
        some (.str (pyFloatRepr c.length)) ∧
      (¬c.float_params.isEmpty →
        jsonLookup (clipDictFields c) "FloatParams" =
          some (.arr ((sortedFloatParams c).map FloatParameter.to_dict))) ∧
      (¬c.controllers.isEmpty →
        jsonLookup (clipDictFields c) "Controllers" =
          some (.arr ((sortedControllers c).map ControllerTarget.to_dict))) ∧
      (¬c.trigger_groups.isEmpty →
        jsonLookup (clipDictFields c) "Triggers" =
          some (.arr ((sortedTriggerGroups c).map TriggerGroup.to_dict))) := by
  haveI : IsTotal AnimationClip (fun a b => a.order_index ≤ b.order_index) :=
    ⟨fun a b => le_total _ _⟩
  haveI : IsTrans AnimationClip (fun a b => a.order_index ≤ b.order_index) :=
    ⟨fun _ _ _ hab hbc => le_trans hab hbc⟩
  refine ⟨by simp [AnimationFile.to_dict, hns], List.perm_insertionSort _ _,
    List.sorted_insertionSort _ _, ?_⟩
  intro c _hc
  haveI : IsTotal FloatParameter
      (fun p q => pairLe (p.storable, p.name) (q.storable, q.name)) :=
    ⟨fun a b => pairLe_total _ _⟩
  haveI : IsTrans FloatParameter
      (fun p q => pairLe (p.storable, p.name) (q.storable, q.name)) :=
    ⟨fun _ _ _ hab hbc => pairLe_trans _ _ _ hab hbc⟩
  haveI : IsTotal ControllerTarget (fun a b => a.id ≤ b.id) :=
    ⟨fun a b => le_total _ _⟩
  haveI : IsTrans ControllerTarget (fun a b => a.id ≤ b.id) :=
    ⟨fun _ _ _ hab hbc => le_trans hab hbc⟩
  haveI : IsTotal TriggerGroup (fun a b => a.name ≤ b.name) :=
    ⟨fun a b => le_total _ _⟩
  haveI : IsTrans TriggerGroup (fun a b => a.name ≤ b.name) :=
    ⟨fun _ _ _ hab hbc => le_trans hab hbc⟩
  -- lookups in the emitted fields
  have hbase : jsonLookup (dictUpdate
      [("AnimationName", Json.str c.name),
       ("AnimationSegment", Json.str c.segment),
       ("AnimationLayer", Json.str c.layer),
       ("AnimationLength", Json.str (pyFloatRepr c.length))]
      c.other_properties) "AnimationLength" =
      some (.str (pyFloatRepr c.length)) := by
    rw [jsonLookup_dictUpdate_of_none _ _ _ (hlen c _hc)]
    simp [jsonLookup, List.find?]
  refine ⟨List.perm_insertionSort _ _, List.sorted_insertionSort _ _,
    List.perm_insertionSort _ _, List.sorted_insertionSort _ _,
    List.perm_insertionSort _ _, List.sorted_insertionSort _ _,
    rfl, ?_, ?_, ?_, ?_⟩
  · show jsonLookup (clipDictFields c) "AnimationLength" = _
    unfold clipDictFields
    dsimp only
    rw [jsonLookup_ite_dictSet_ne _ _ _ _ _ (by decide),
      jsonLookup_ite_dictSet_ne _ _ _ _ _ (by decide),
      jsonLookup_ite_dictSet_ne _ _ _ _ _ (by decide), hbase]
  · intro hfp
    unfold clipDictFields
    dsimp only
    rw [if_pos hfp,
      jsonLookup_ite_dictSet_ne _ _ _ _ _ (by decide),
      jsonLookup_ite_dictSet_ne _ _ _ _ _ (by decide),
      jsonLookup_dictSet_self]
  · intro hct
    unfold clipDictFields
    dsimp only
    rw [if_pos hct,
      jsonLookup_ite_dictSet_ne _ _ _ _ _ (by decide),
      jsonLookup_dictSet_self]
  · intro htg
    unfold clipDictFields
    dsimp only
    rw [if_pos htg, jsonLookup_dictSet_self]

/-- Witness for C9 on a concrete two-clip standalone file. -/
theorem C9_deterministic_serialization_witness :
    ∃ f : AnimationFile, f.is_scene = false ∧
      (∀ c ∈ f.clips,
        jsonLookup c.other_properties "AnimationLength" = none) ∧
      (sortedClips f).Perm f.clips ∧
      (sortedClips f).Sorted (fun a b => a.order_index ≤ b.order_index) := by
  refine ⟨{ version := some "4", atom_type := some "Person",
            clips := [{ name := "A", segment := "S", layer := "L",
                        length := 5/2, order_index := 0,
                        atom_id := some "(Standalone)", storable_id := none,
                        other_properties := [], float_params := [],
                        controllers := [], trigger_groups := [] }],
            is_scene := false }, rfl, ?_, ?_, ?_⟩
  · intro c hc
    simp only [List.mem_singleton] at hc
    subst hc
    rfl
  · exact (C9_deterministic_serialization _ rfl (by
      intro c hc
      simp only [List.mem_singleton] at hc
      subst hc
      rfl)).2.1
  · exact (C9_deterministic_serialization _ rfl (by
      intro c hc
      simp only [List.mem_singleton] at hc
      subst hc
      rfl)).2.2.1

/-! ### C10: load failure leaves no document -/

/-- **C10** (load failure resets the document): for every prior state and
input, if loading fails at any point — the file is unreadable / the JSON is
invalid (`read_result` is an error), the document is not a JSON object, or
the clip data is malformed (the parse raises) — then `load_file` leaves
`animation_file = None` and `current_file_path = None` and reports a
structured error; in particular any previously loaded document is
discarded. -/
theorem C10_load_failure_resets (st : AppState) (fn : String)
    (input : Except String Json)
    (h : (∃ e, input = .error e) ∨
         (∃ fields e, input = .ok (.obj fields) ∧
            parseAnimationFile fields = .error e) ∨
         (∃ j, input = .ok j ∧ ∀ fields, j ≠ .obj fields)) :
    ∃ e, load_file st fn input = (⟨none, none⟩, some e) := by
  rcases h with ⟨e, rfl⟩ | ⟨fields, e, rfl, hp⟩ | ⟨j, rfl, hj⟩
  · exact ⟨e, rfl⟩
  · exact ⟨e, by simp [load_file, hp]⟩
  · cases j with
    | obj fields => exact absurd rfl (hj fields)
    | null => exact ⟨_, rfl⟩
    | bool b => exact ⟨_, rfl⟩
    | num q => exact ⟨_, rfl⟩
    | str s => exact ⟨_, rfl⟩
    | arr elems => exact ⟨_, rfl⟩

/-- Witness for C10: an unreadable file, and a document whose clip data
raises during construction (`AnimationLength` not convertible to float). -/
theorem C10_load_failure_resets_witness :
    (∃ e, load_file ⟨none, none⟩ "f.json" (.error "No such file") =
      (⟨none, none⟩, some e)) ∧
    (∃ e, load_file ⟨none, none⟩ "g.json"
        (.ok (.obj [("Clips", .arr [.obj [("AnimationLength", .str "x")]])])) =
      (⟨none, none⟩, some e)) :=
  ⟨C10_load_failure_resets _ _ _ (Or.inl ⟨_, rfl⟩),
   C10_load_failure_resets _ _ _ (Or.inr (Or.inl ⟨_, _, rfl, by
     with_unfolding_all rfl⟩))⟩

end VamTimeline
